import Mathlib

/-!
Verification development for the reliable-TCP messaging layer of the
repository (file `tcp_comunicacion_confiable.py`).

The shallow embedding below translates the Python source into pure Lean
functions:

* JSON values are modelled by `JVal`; a structured message (a Python dict
  produced by the code) is a `JObj`, an association list of fields.
* `json_dumps` models Python's `json.dumps` with its defaults
  (`ensure_ascii=True`, separators `", "` and `": "`); `json_loads` models
  `json.loads` on the flat objects this protocol exchanges, returning
  `none` where Python would raise `json.JSONDecodeError`.
* `utf8Encode` / `utf8Decode` model `str.encode('utf-8')` and
  `bytes.decode('utf-8')`; bytes are `Nat`s below 256, a byte stream is a
  `List Nat` holding the bytes available before the peer closes.
* `pack4` / `unpack4` model `struct.pack('!I', n)` / `struct.unpack('!I', b)`.
* The stateful methods of `ComunicacionTCPConfiable` become explicit
  state-passing functions over `Estado`; timing and transport effects are
  recorded as a trace of `Accion`s, and real time is abstracted to natural
  numbers of seconds (the source's `timeout_ack = 5.0`, backoff `2 ** n`,
  heartbeat interval and `time.time()` stamps all carry integral values in
  the runs the claims describe).
-/

namespace TCPFiable

/-- A scalar JSON value as used by the protocol's flat messages:
strings, non-negative integers (message ids, abstracted timestamps) and
booleans. -/
inductive JVal : Type where
  | jstr (s : String)
  | jnat (n : Nat)
  | jbool (b : Bool)
deriving DecidableEq, Repr

/-- A structured message: a Python dict with string keys, in insertion
order (Python dicts preserve insertion order). -/
abbrev JObj := List (String × JVal)

/-- The opening-brace character, code point 123. -/
def llaveAbre : Char := Char.ofNat 123

/-- The closing-brace character, code point 125. -/
def llaveCierra : Char := Char.ofNat 125

/-- Lower-case hexadecimal digit for `d < 16`, as emitted by Python's
`\uXXXX` escapes. -/
def hexDig (d : Nat) : Char :=
  if d < 10 then Char.ofNat (48 + d) else Char.ofNat (87 + d)

/-- Four-digit lower-case hexadecimal rendering of `n < 0x10000`. -/
def toHex4 (n : Nat) : List Char :=
  [hexDig (n / 4096), hexDig (n / 256 % 16), hexDig (n / 16 % 16), hexDig (n % 16)]

/-- `json.dumps` escaping of one character with the default
`ensure_ascii=True`: the short escapes of `ESCAPE_DCT`, `\u00XX` for the
remaining control characters, printable ASCII kept literal, `\uXXXX` for
every character above `0x7e`, with a surrogate pair for the astral
plane. -/
def escapeChar (c : Char) : List Char :=
  if c = '"' then ['\\', '"']
  else if c = '\\' then ['\\', '\\']
  else if c = '\x08' then ['\\', 'b']
  else if c = '\x0c' then ['\\', 'f']
  else if c = '\n' then ['\\', 'n']
  else if c = '\r' then ['\\', 'r']
  else if c = '\t' then ['\\', 't']
  else if c.toNat < 32 then '\\' :: 'u' :: toHex4 c.toNat
  else if c.toNat < 127 then [c]
  else if c.toNat < 65536 then '\\' :: 'u' :: toHex4 c.toNat
  else
    ('\\' :: 'u' :: toHex4 (55296 + (c.toNat - 65536) / 1024)) ++
    ('\\' :: 'u' :: toHex4 (56320 + (c.toNat - 65536) % 1024))

/-- Escaping of a whole string body (no surrounding quotes). -/
def escList (cs : List Char) : List Char := (cs.map escapeChar).flatten

/-- Fuel-bounded digit rendering; any fuel at or above `n` is enough. -/
def natToCharsAux : Nat → Nat → List Char
  | 0, n => [Char.ofNat (48 + n % 10)]
  | fuel + 1, n =>
    if n < 10 then [Char.ofNat (48 + n)]
    else natToCharsAux fuel (n / 10) ++ [Char.ofNat (48 + n % 10)]

/-- Decimal digits of `n`, most significant first, as `json.dumps` prints
a non-negative `int`. -/
def natToChars (n : Nat) : List Char := natToCharsAux n n

theorem natToCharsAux_irrel : ∀ (f : Nat), ∀ n ≤ f, natToCharsAux f n = natToCharsAux n n := by
  intro f
  induction f using Nat.strong_induction_on with
  | _ f ih =>
    intro n hn
    match f with
    | 0 =>
      interval_cases n
      rfl
    | f + 1 =>
      rw [natToCharsAux]
      by_cases h10 : n < 10
      · rw [if_pos h10]
        match n, h10 with
        | 0, _ => rfl
        | k + 1, hk =>
          rw [natToCharsAux, if_pos hk]
      · rw [if_neg h10]
        obtain ⟨m, rfl⟩ : ∃ m, n = m + 1 := ⟨n - 1, by omega⟩
        rw [ih f (by omega) ((m + 1) / 10) (by omega)]
        rw [natToCharsAux, if_neg h10, ih m (by omega) ((m + 1) / 10) (by omega)]

/-- The recursive unfolding of `natToChars`. -/
theorem natToChars_eq (n : Nat) :
    natToChars n = if n < 10 then [Char.ofNat (48 + n)]
      else natToChars (n / 10) ++ [Char.ofNat (48 + n % 10)] := by
  match n with
  | 0 => rfl
  | m + 1 =>
    rw [natToChars, natToCharsAux]
    by_cases h10 : m + 1 < 10
    · rw [if_pos h10, if_pos h10]
    · rw [if_neg h10, if_neg h10, natToChars,
        natToCharsAux_irrel m ((m + 1) / 10) (by omega)]

/-- Serialization of one scalar value. -/
def serVal : JVal → List Char
  | .jstr s => '"' :: (escList s.data ++ ['"'])
  | .jnat n => natToChars n
  | .jbool true => ['t', 'r', 'u', 'e']
  | .jbool false => ['f', 'a', 'l', 's', 'e']

/-- Serialization of the key/value pairs of an object, separated by
`", "`, key and value separated by `": "` (Python's default
separators). -/
def serPairs : JObj → List Char
  | [] => []
  | [(k, v)] => '"' :: (escList k.data ++ '"' :: ':' :: ' ' :: serVal v)
  | (k, v) :: p :: rest =>
      '"' :: (escList k.data ++ '"' :: ':' :: ' ' :: (serVal v ++ ',' :: ' ' :: serPairs (p :: rest)))

/-- Model of `json.dumps(mensaje)` with Python's defaults, as called in
`_enviar_mensaje_raw`. -/
def json_dumps (o : JObj) : List Char :=
  llaveAbre :: (serPairs o ++ [llaveCierra])

/-- Value of a hexadecimal digit character, `none` on any other
character. -/
def hexVal (c : Char) : Option Nat :=
  if 48 ≤ c.toNat ∧ c.toNat ≤ 57 then some (c.toNat - 48)
  else if 97 ≤ c.toNat ∧ c.toNat ≤ 102 then some (c.toNat - 87)
  else if 65 ≤ c.toNat ∧ c.toNat ≤ 70 then some (c.toNat - 55)
  else none

/-- Reads four hexadecimal digits (the `XXXX` of a `\uXXXX` escape). -/
def parseHex4 : List Char → Option (Nat × List Char)
  | a :: b :: c :: d :: r =>
    match hexVal a, hexVal b, hexVal c, hexVal d with
    | some x, some y, some z, some w => some (x * 4096 + y * 256 + z * 16 + w, r)
    | _, _, _, _ => none
  | _ => none

/-- The `\uXXXX` part of an escape, after the `\u`.  Surrogate pairs are
recombined; a lone surrogate is rejected (such a value cannot inhabit
`Char`, and the serializer never emits one). -/
def parseEscU (r1 : List Char) : Option (Char × List Char) :=
  (parseHex4 r1).bind fun p =>
    if 55296 ≤ p.1 ∧ p.1 < 56320 then
      match p.2 with
      | c1 :: c2 :: r3 =>
        if c1 = '\\' ∧ c2 = 'u' then
          (parseHex4 r3).bind fun q =>
            if 56320 ≤ q.1 ∧ q.1 < 57344 then
              some (Char.ofNat (65536 + (p.1 - 55296) * 1024 + (q.1 - 56320)), q.2)
            else none
        else none
      | _ => none
    else if 56320 ≤ p.1 ∧ p.1 < 57344 then none
    else some (Char.ofNat p.1, p.2)

/-- One escape sequence of a JSON string body, after the leading
backslash. -/
def parseEsc (r : List Char) : Option (Char × List Char) :=
  match r with
  | [] => none
  | e :: r1 =>
    if e = '"' then some ('"', r1)
    else if e = '\\' then some ('\\', r1)
    else if e = '/' then some ('/', r1)
    else if e = 'b' then some ('\x08', r1)
    else if e = 'f' then some ('\x0c', r1)
    else if e = 'n' then some ('\n', r1)
    else if e = 'r' then some ('\r', r1)
    else if e = 't' then some ('\t', r1)
    else if e = 'u' then parseEscU r1
    else none

/-- One token of a JSON string body: either the closing quote or one
decoded character. -/
inductive TokCadena : Type where
  | cierre
  | caracter (c : Char)
deriving DecidableEq, Repr

/-- Reads one token of a JSON string body. -/
def parseTok (s : List Char) : Option (TokCadena × List Char) :=
  match s with
  | [] => none
  | c :: r =>
    if c = '"' then some (.cierre, r)
    else if c = '\\' then (parseEsc r).map fun p => (.caracter p.1, p.2)
    else some (.caracter c, r)

/-- Reads a JSON string body up to and including the closing quote; the
fuel bounds the number of characters (any fuel above the input length is
enough, since every token consumes at least one input character). -/
def parseCadena : Nat → List Char → Option (List Char × List Char)
  | 0, _ => none
  | fuel + 1, s =>
    match parseTok s with
    | none => none
    | some (.cierre, r) => some ([], r)
    | some (.caracter c, r) =>
      match parseCadena fuel r with
      | none => none
      | some (cs, r1) => some (c :: cs, r1)

/-- JSON whitespace. -/
def esBlanco (c : Char) : Bool :=
  c = ' ' || c = '\t' || c = '\n' || c = '\r'

/-- Skips JSON whitespace. -/
def dropBlancos (s : List Char) : List Char := s.dropWhile esBlanco

/-- Decimal digit test. -/
def esDigito (c : Char) : Bool := 48 ≤ c.toNat && c.toNat ≤ 57

/-- Reads a non-negative decimal integer (the only number shape the
protocol's messages carry). -/
def parseNum (s : List Char) : Option (Nat × List Char) :=
  let ds := s.takeWhile esDigito
  if ds = [] then none
  else some (ds.foldl (fun a c => a * 10 + (c.toNat - 48)) 0, s.dropWhile esDigito)

/-- Consumes one expected character from the head of the input. -/
def esperaChar (c : Char) (s : List Char) : Option (List Char) :=
  match s with
  | [] => none
  | x :: r => if x = c then some r else none

/-- Reads one scalar JSON value. -/
def parseVal (s : List Char) : Option (JVal × List Char) :=
  match s with
  | [] => none
  | c :: r =>
    if c = '"' then
      (parseCadena (r.length + 1) r).map fun p => (JVal.jstr (String.mk p.1), p.2)
    else if esDigito c then
      (parseNum (c :: r)).map fun p => (JVal.jnat p.1, p.2)
    else if c = 't' then
      (esperaChar 'r' r).bind fun r1 =>
        (esperaChar 'u' r1).bind fun r2 =>
          (esperaChar 'e' r2).map fun r3 => (JVal.jbool true, r3)
    else if c = 'f' then
      (esperaChar 'a' r).bind fun r1 =>
        (esperaChar 'l' r1).bind fun r2 =>
          (esperaChar 's' r2).bind fun r3 =>
            (esperaChar 'e' r3).map fun r4 => (JVal.jbool false, r4)
    else none

/-- Reads a non-empty sequence of `"key": value` pairs up to and
including the closing brace; the fuel bounds the number of pairs. -/
def parsePares : Nat → List Char → Option (JObj × List Char)
  | 0, _ => none
  | fuel + 1, s =>
    (esperaChar '"' s).bind fun r =>
      (parseCadena (r.length + 1) r).bind fun pk =>
        (esperaChar ':' (dropBlancos pk.2)).bind fun r2 =>
          (parseVal (dropBlancos r2)).bind fun pv =>
            match dropBlancos pv.2 with
            | [] => none
            | c4 :: r4 =>
              if c4 = ',' then
                (parsePares fuel (dropBlancos r4)).map fun po =>
                  ((String.mk pk.1, pv.1) :: po.1, po.2)
              else if c4 = llaveCierra then some ([(String.mk pk.1, pv.1)], r4)
              else none

/-- Model of `json.loads(mensaje_texto)` on the flat objects this
protocol exchanges: one object of scalar fields, surrounded by optional
whitespace, with nothing after it.  Returns `none` where Python raises
`json.JSONDecodeError`. -/
def json_loads (s : List Char) : Option JObj :=
  (esperaChar llaveAbre (dropBlancos s)).bind fun r =>
    match dropBlancos r with
    | [] => none
    | c1 :: r1 =>
      if c1 = llaveCierra then
        if dropBlancos r1 = [] then some [] else none
      else
        (parsePares (r1.length + 1) (c1 :: r1)).bind fun po =>
          if dropBlancos po.2 = [] then some po.1 else none

/-! ### Round-trip lemmas for the codec -/

theorem hexVal_hexDig : ∀ d < 16, hexVal (hexDig d) = some d := by decide

theorem parseHex4_toHex4 (n : Nat) (h : n < 65536) (r : List Char) :
    parseHex4 (toHex4 n ++ r) = some (n, r) := by
  have h1 := hexVal_hexDig (n / 4096) (by omega)
  have h2 := hexVal_hexDig (n / 256 % 16) (by omega)
  have h3 := hexVal_hexDig (n / 16 % 16) (by omega)
  have h4 := hexVal_hexDig (n % 16) (by omega)
  simp only [toHex4, List.cons_append, List.nil_append, parseHex4, h1, h2, h3, h4]
  simp only [Option.some.injEq, Prod.mk.injEq]
  exact ⟨by omega, trivial⟩

/-- The valid scalar range of a `Char`, with the surrogate gap. -/
theorem char_valido (c : Char) : c.toNat < 55296 ∨ (57343 < c.toNat ∧ c.toNat < 1114112) := by
  have h := c.valid
  unfold UInt32.isValidChar Nat.isValidChar at h
  exact h

theorem parseEscU_bmp (n : Nat) (r : List Char) (hlt : n < 65536)
    (hs : n < 55296 ∨ 57343 < n) :
    parseEscU (toHex4 n ++ r) = some (Char.ofNat n, r) := by
  simp only [parseEscU, parseHex4_toHex4 n hlt r, Option.some_bind]
  rw [if_neg (by omega), if_neg (by omega)]

theorem parseEscU_astral (n : Nat) (r : List Char) (hlo : 65536 ≤ n)
    (hhi : n < 1114112) :
    parseEscU (toHex4 (55296 + (n - 65536) / 1024) ++
        ('\\' :: 'u' :: (toHex4 (56320 + (n - 65536) % 1024) ++ r)))
      = some (Char.ofNat n, r) := by
  have hdiv : (n - 65536) / 1024 < 1024 := by omega
  have hmod : (n - 65536) % 1024 < 1024 := by omega
  rw [parseEscU, parseHex4_toHex4 (55296 + (n - 65536) / 1024) (by omega)]
  rw [Option.some_bind]
  rw [if_pos (by omega : 55296 ≤ 55296 + (n - 65536) / 1024 ∧ 55296 + (n - 65536) / 1024 < 56320)]
  dsimp only
  rw [if_pos (⟨rfl, rfl⟩ : ('\\' : Char) = '\\' ∧ ('u' : Char) = 'u')]
  rw [parseHex4_toHex4 (56320 + (n - 65536) % 1024) (by omega), Option.some_bind]
  rw [if_pos (by omega : 56320 ≤ 56320 + (n - 65536) % 1024 ∧ 56320 + (n - 65536) % 1024 < 57344)]
  have harg : 65536 + (55296 + (n - 65536) / 1024 - 55296) * 1024 +
      (56320 + (n - 65536) % 1024 - 56320) = n := by omega
  rw [harg]

theorem parseTok_cons_otro (c : Char) (x : List Char) (h1 : c ≠ '"') (h2 : c ≠ '\\') :
    parseTok (c :: x) = some (.caracter c, x) := by
  simp [parseTok, h1, h2]

theorem parseTok_u (x : List Char) :
    parseTok ('\\' :: 'u' :: x) = (parseEscU x).map fun p => (TokCadena.caracter p.1, p.2) := rfl

/-- Decoding one serialized character recovers it exactly. -/
theorem parseTok_escapeChar (c : Char) (r : List Char) :
    parseTok (escapeChar c ++ r) = some (.caracter c, r) := by
  rcases eq_or_ne c '"' with h1 | h1
  · subst h1; rfl
  rcases eq_or_ne c '\\' with h2 | h2
  · subst h2; rfl
  rcases eq_or_ne c '\x08' with h3 | h3
  · subst h3; rfl
  rcases eq_or_ne c '\x0c' with h4 | h4
  · subst h4; rfl
  rcases eq_or_ne c '\n' with h5 | h5
  · subst h5; rfl
  rcases eq_or_ne c '\r' with h6 | h6
  · subst h6; rfl
  rcases eq_or_ne c '\t' with h7 | h7
  · subst h7; rfl
  by_cases h8 : c.toNat < 32
  · have he : escapeChar c = '\\' :: 'u' :: toHex4 c.toNat := by
      rw [escapeChar, if_neg h1, if_neg h2, if_neg h3, if_neg h4, if_neg h5, if_neg h6,
        if_neg h7, if_pos h8]
    rw [he, List.cons_append, List.cons_append, parseTok_u,
      parseEscU_bmp c.toNat r (by omega) (by omega), Option.map_some', Char.ofNat_toNat]
  by_cases h9 : c.toNat < 127
  · have he : escapeChar c = [c] := by
      rw [escapeChar, if_neg h1, if_neg h2, if_neg h3, if_neg h4, if_neg h5, if_neg h6,
        if_neg h7, if_neg h8, if_pos h9]
    rw [he, List.cons_append, List.nil_append, parseTok_cons_otro c r h1 h2]
  by_cases h10 : c.toNat < 65536
  · have he : escapeChar c = '\\' :: 'u' :: toHex4 c.toNat := by
      rw [escapeChar, if_neg h1, if_neg h2, if_neg h3, if_neg h4, if_neg h5, if_neg h6,
        if_neg h7, if_neg h8, if_neg h9, if_pos h10]
    have hv := char_valido c
    rw [he, List.cons_append, List.cons_append, parseTok_u,
      parseEscU_bmp c.toNat r (by omega) (by omega), Option.map_some', Char.ofNat_toNat]
  · have he : escapeChar c =
        ('\\' :: 'u' :: toHex4 (55296 + (c.toNat - 65536) / 1024)) ++
        ('\\' :: 'u' :: toHex4 (56320 + (c.toNat - 65536) % 1024)) := by
      rw [escapeChar, if_neg h1, if_neg h2, if_neg h3, if_neg h4, if_neg h5, if_neg h6,
        if_neg h7, if_neg h8, if_neg h9, if_neg h10]
    have hv := char_valido c
    rw [he]
    simp only [List.cons_append, List.append_assoc]
    rw [parseTok_u, parseEscU_astral c.toNat r (by omega) (by omega), Option.map_some',
      Char.ofNat_toNat]

theorem escList_cons (c : Char) (cs : List Char) :
    escList (c :: cs) = escapeChar c ++ escList cs := by
  simp [escList]

/-- Decoding a serialized string body up to its closing quote recovers
the characters exactly; any fuel above the character count is enough. -/
theorem parseCadena_escList (cs : List Char) : ∀ fuel r, cs.length + 1 ≤ fuel →
    parseCadena fuel (escList cs ++ '"' :: r) = some (cs, r) := by
  induction cs with
  | nil =>
    intro fuel r h
    obtain ⟨f, rfl⟩ : ∃ f, fuel = f + 1 := ⟨fuel - 1, by omega⟩
    rfl
  | cons c cs ih =>
    intro fuel r h
    obtain ⟨f, rfl⟩ : ∃ f, fuel = f + 1 := ⟨fuel - 1, by omega⟩
    rw [escList_cons, List.append_assoc]
    show parseCadena (f + 1) _ = _
    rw [parseCadena, parseTok_escapeChar c]
    dsimp only
    rw [ih f r (by simp only [List.length_cons] at h; omega)]

theorem natToChars_dig : ∀ k < 10,
    esDigito (Char.ofNat (48 + k)) = true ∧ (Char.ofNat (48 + k)).toNat = 48 + k := by
  decide

theorem natToChars_todos_dig (n : Nat) : ∀ c ∈ natToChars n, esDigito c = true := by
  induction n using Nat.strong_induction_on with
  | _ n ih =>
    rw [natToChars_eq]
    split
    · next h =>
      intro c hc
      simp only [List.mem_singleton] at hc
      subst hc
      exact (natToChars_dig n h).1
    · next h =>
      intro c hc
      rcases List.mem_append.1 hc with hm | hm
      · exact ih (n / 10) (Nat.div_lt_self (by omega) (by omega)) c hm
      · simp only [List.mem_singleton] at hm
        subst hm
        exact (natToChars_dig (n % 10) (by omega)).1

theorem natToChars_ne_nil (n : Nat) : natToChars n ≠ [] := by
  rw [natToChars_eq]
  split <;> simp

theorem foldl_natToChars (n : Nat) : ∀ a : Nat,
    (natToChars n).foldl (fun a c => a * 10 + (c.toNat - 48)) a
      = a * 10 ^ (natToChars n).length + n := by
  induction n using Nat.strong_induction_on with
  | _ n ih =>
    intro a
    rw [natToChars_eq]
    split
    · next h =>
      simp only [List.foldl_cons, List.foldl_nil, List.length_singleton, pow_one]
      rw [(natToChars_dig n h).2]
      omega
    · next h =>
      rw [List.foldl_append]
      rw [ih (n / 10) (Nat.div_lt_self (by omega) (by omega)) a]
      simp only [List.foldl_cons, List.foldl_nil, List.length_append, List.length_singleton]
      rw [(natToChars_dig (n % 10) (by omega)).2]
      have h2 : 10 * (n / 10) + n % 10 = n := by omega
      calc (a * 10 ^ (natToChars (n / 10)).length + n / 10) * 10 + (48 + n % 10 - 48)
          = a * (10 ^ (natToChars (n / 10)).length * 10) + (10 * (n / 10) + n % 10) := by ring_nf; omega
        _ = a * 10 ^ ((natToChars (n / 10)).length + 1) + n := by rw [h2, pow_succ]

theorem takeWhile_append_todos {α : Type} {p : α → Bool} (xs ys : List α)
    (h : ∀ x ∈ xs, p x = true) : (xs ++ ys).takeWhile p = xs ++ ys.takeWhile p := by
  induction xs with
  | nil => simp
  | cons x xs ih =>
    simp only [List.cons_append, List.takeWhile_cons, h x (List.mem_cons_self x xs), if_true]
    rw [ih (fun y hy => h y (List.mem_cons_of_mem x hy))]

theorem dropWhile_append_todos {α : Type} {p : α → Bool} (xs ys : List α)
    (h : ∀ x ∈ xs, p x = true) : (xs ++ ys).dropWhile p = ys.dropWhile p := by
  induction xs with
  | nil => simp
  | cons x xs ih =>
    simp only [List.cons_append, List.dropWhile_cons, h x (List.mem_cons_self x xs), if_true]
    exact ih (fun y hy => h y (List.mem_cons_of_mem x hy))

/-- The first character of `r` (if any) is not a decimal digit. -/
def noDigitoCabeza : List Char → Bool
  | [] => true
  | c :: _ => !esDigito c

theorem parseNum_natToChars (n : Nat) (r : List Char) (h : noDigitoCabeza r = true) :
    parseNum (natToChars n ++ r) = some (n, r) := by
  have hall := natToChars_todos_dig n
  have hrt : r.takeWhile esDigito = [] := by
    cases r with
    | nil => rfl
    | cons c t =>
      simp only [noDigitoCabeza, Bool.not_eq_true'] at h
      simp [List.takeWhile_cons, h]
  have hrd : r.dropWhile esDigito = r := by
    cases r with
    | nil => rfl
    | cons c t =>
      simp only [noDigitoCabeza, Bool.not_eq_true'] at h
      simp [List.dropWhile_cons, h]
  rw [parseNum]
  simp only [takeWhile_append_todos _ _ hall, dropWhile_append_todos _ _ hall, hrt, hrd,
    List.append_nil]
  rw [if_neg (natToChars_ne_nil n)]
  rw [foldl_natToChars n 0]
  simp

theorem escapeChar_ne_nil (c : Char) : escapeChar c ≠ [] := by
  intro hh
  have h := parseTok_escapeChar c []
  rw [hh] at h
  simp [parseTok] at h

theorem escList_longitud (cs : List Char) : cs.length ≤ (escList cs).length := by
  induction cs with
  | nil => simp [escList]
  | cons c cs ih =>
    rw [escList_cons, List.length_append]
    have h1 : 0 < (escapeChar c).length := List.length_pos.mpr (escapeChar_ne_nil c)
    simp only [List.length_cons]
    omega

theorem parseVal_serVal (v : JVal) (rest : List Char) (h : noDigitoCabeza rest = true) :
    parseVal (serVal v ++ rest) = some (v, rest) := by
  cases v with
  | jstr s =>
    obtain ⟨cs⟩ := s
    dsimp only [serVal]
    simp only [List.cons_append, List.append_assoc, List.singleton_append, List.nil_append]
    rw [parseVal, if_pos rfl]
    have hfuel : cs.length + 1 ≤ (escList cs ++ '"' :: rest).length + 1 := by
      simp only [List.length_append, List.length_cons]
      have := escList_longitud cs
      omega
    rw [parseCadena_escList cs _ rest hfuel]
    rfl
  | jnat n =>
    obtain ⟨c, t, hct⟩ : ∃ c t, natToChars n = c :: t := by
      cases hnc : natToChars n with
      | nil => exact absurd hnc (natToChars_ne_nil n)
      | cons c t => exact ⟨c, t, rfl⟩
    have hdig : esDigito c = true :=
      natToChars_todos_dig n c (by rw [hct]; exact List.mem_cons_self c t)
    have hnq : c ≠ '"' := by
      intro hh
      subst hh
      exact absurd hdig (by decide)
    dsimp only [serVal]
    rw [hct, List.cons_append, parseVal, if_neg hnq, if_pos hdig,
      ← List.cons_append, ← hct, parseNum_natToChars n rest h]
    rfl
  | jbool b => cases b <;> rfl

theorem esBlanco_eq_false (c : Char) (h : 33 ≤ c.toNat) : esBlanco c = false := by
  have h1 : c ≠ ' ' := by intro hh; subst hh; exact absurd h (by decide)
  have h2 : c ≠ '\t' := by intro hh; subst hh; exact absurd h (by decide)
  have h3 : c ≠ '\n' := by intro hh; subst hh; exact absurd h (by decide)
  have h4 : c ≠ '\r' := by intro hh; subst hh; exact absurd h (by decide)
  simp [esBlanco, h1, h2, h3, h4]

theorem dropBlancos_cons_no (c : Char) (t : List Char) (h : 33 ≤ c.toNat) :
    dropBlancos (c :: t) = c :: t := by
  simp [dropBlancos, List.dropWhile_cons, esBlanco_eq_false c h]

theorem dropBlancos_espacio (t : List Char) : dropBlancos (' ' :: t) = dropBlancos t := by
  have hb : esBlanco ' ' = true := by decide
  simp [dropBlancos, List.dropWhile_cons, hb]

/-- Every serialized scalar starts with a character of code at least 34
(a quote, a digit, `t` or `f`). -/
theorem serVal_cabeza (v : JVal) : ∃ c t, serVal v = c :: t ∧ 34 ≤ c.toNat := by
  cases v with
  | jstr s => exact ⟨'"', _, rfl, by decide⟩
  | jnat n =>
    obtain ⟨c, t, hct⟩ : ∃ c t, natToChars n = c :: t := by
      cases hnc : natToChars n with
      | nil => exact absurd hnc (natToChars_ne_nil n)
      | cons c t => exact ⟨c, t, rfl⟩
    have hdig : esDigito c = true :=
      natToChars_todos_dig n c (by rw [hct]; exact List.mem_cons_self c t)
    refine ⟨c, t, hct, ?_⟩
    simp only [esDigito, Bool.and_eq_true, decide_eq_true_eq] at hdig
    omega
  | jbool b =>
    cases b with
    | true => exact ⟨'t', _, rfl, by decide⟩
    | false => exact ⟨'f', _, rfl, by decide⟩

theorem dropBlancos_serVal (v : JVal) (x : List Char) :
    dropBlancos (serVal v ++ x) = serVal v ++ x := by
  obtain ⟨c, t, hct, hc⟩ := serVal_cabeza v
  rw [hct, List.cons_append, dropBlancos_cons_no c _ (by omega)]

theorem esperaChar_eq (c : Char) (r : List Char) : esperaChar c (c :: r) = some r := by
  simp [esperaChar]

theorem parseCadena_escList_aj (cs : List Char) (r : List Char) :
    parseCadena ((escList cs ++ '"' :: r).length + 1) (escList cs ++ '"' :: r)
      = some (cs, r) := by
  apply parseCadena_escList
  simp only [List.length_append, List.length_cons]
  have := escList_longitud cs
  omega

theorem serPairs_cabeza (o : JObj) (hne : o ≠ []) : ∃ t, serPairs o = '"' :: t := by
  cases o with
  | nil => exact absurd rfl hne
  | cons kv o' =>
    obtain ⟨k, v⟩ := kv
    cases o' with
    | nil => exact ⟨_, rfl⟩
    | cons q o2 => exact ⟨_, rfl⟩

theorem serPairs_longitud (o : JObj) : o.length ≤ (serPairs o).length := by
  induction o with
  | nil => simp [serPairs]
  | cons kv o ih =>
    obtain ⟨k, v⟩ := kv
    cases o with
    | nil => simp [serPairs]
    | cons q o2 =>
      rw [serPairs]
      simp only [List.length_cons, List.length_append] at *
      omega

theorem dropBlancos_serPairs (o : JObj) (hne : o ≠ []) (x : List Char) :
    dropBlancos (serPairs o ++ x) = serPairs o ++ x := by
  obtain ⟨t, ht⟩ := serPairs_cabeza o hne
  rw [ht, List.cons_append, dropBlancos_cons_no _ _ (by decide)]

/-- Parsing the serialized pairs of a non-empty object, followed by the
closing brace, recovers the object. -/
theorem parsePares_serPairs : ∀ (o : JObj) (rest : List Char) (fuel : Nat), o ≠ [] →
    o.length ≤ fuel → parsePares fuel (serPairs o ++ llaveCierra :: rest) = some (o, rest) := by
  intro o
  induction o with
  | nil => intro rest fuel hne _; exact absurd rfl hne
  | cons kv o ih =>
    intro rest fuel _ hlen
    obtain ⟨k, v⟩ := kv
    obtain ⟨kcs⟩ := k
    obtain ⟨f, rfl⟩ : ∃ f, fuel = f + 1 :=
      ⟨fuel - 1, by simp only [List.length_cons] at hlen; omega⟩
    cases o with
    | nil =>
      rw [parsePares]
      dsimp only [serPairs]
      simp only [List.cons_append, List.append_assoc]
      rw [esperaChar_eq, Option.some_bind, parseCadena_escList_aj, Option.some_bind]
      dsimp only
      rw [dropBlancos_cons_no ':' _ (by decide), esperaChar_eq, Option.some_bind]
      rw [dropBlancos_espacio, dropBlancos_serVal,
        parseVal_serVal v (llaveCierra :: rest) (by simp only [noDigitoCabeza]; decide),
        Option.some_bind]
      dsimp only
      rw [dropBlancos_cons_no _ _ (by decide)]
      dsimp only
      rw [if_neg (by decide : ¬(llaveCierra = ',')), if_pos rfl]
    | cons q o2 =>
      rw [parsePares]
      dsimp only [serPairs]
      simp only [List.cons_append, List.append_assoc]
      rw [esperaChar_eq, Option.some_bind, parseCadena_escList_aj, Option.some_bind]
      dsimp only
      rw [dropBlancos_cons_no ':' _ (by decide), esperaChar_eq, Option.some_bind]
      rw [dropBlancos_espacio, dropBlancos_serVal,
        parseVal_serVal v (',' :: ' ' :: (serPairs (q :: o2) ++ llaveCierra :: rest))
          (by simp only [noDigitoCabeza]; decide),
        Option.some_bind]
      dsimp only
      rw [dropBlancos_cons_no ',' _ (by decide)]
      dsimp only
      rw [if_pos rfl]
      rw [dropBlancos_espacio, dropBlancos_serPairs (q :: o2) (List.cons_ne_nil q o2)]
      rw [ih rest f (List.cons_ne_nil q o2)
        (by simp only [List.length_cons] at hlen ⊢; omega)]
      rfl

/-- `json.loads` is a left inverse of `json.dumps` on the structured
messages of the protocol. -/
theorem json_loads_dumps (o : JObj) : json_loads (json_dumps o) = some o := by
  cases o with
  | nil => rfl
  | cons kv o' =>
    rw [json_dumps, json_loads]
    rw [dropBlancos_cons_no _ _ (by decide), esperaChar_eq, Option.some_bind]
    obtain ⟨t, ht⟩ := serPairs_cabeza (kv :: o') (List.cons_ne_nil kv o')
    rw [ht, List.cons_append, dropBlancos_cons_no _ _ (by decide)]
    dsimp only
    rw [if_neg (by decide : ¬(('"' : Char) = llaveCierra))]
    have hback : ('"' : Char) :: (t ++ [llaveCierra]) = serPairs (kv :: o') ++ llaveCierra :: [] := by
      rw [ht, List.cons_append]
    rw [hback]
    have hfl : (kv :: o').length ≤ (t ++ [llaveCierra]).length + 1 := by
      have h1 := serPairs_longitud (kv :: o')
      rw [ht] at h1
      simp only [List.length_cons, List.length_append, List.length_singleton] at h1 ⊢
      omega
    rw [parsePares_serPairs (kv :: o') [] _ (List.cons_ne_nil kv o') hfl, Option.some_bind]
    rfl

/-! ### UTF-8, models of `str.encode('utf-8')` and `bytes.decode('utf-8')` -/

/-- UTF-8 encoding of one character. -/
def utf8EncodeChar (c : Char) : List Nat :=
  let n := c.toNat
  if n < 128 then [n]
  else if n < 2048 then [192 + n / 64, 128 + n % 64]
  else if n < 65536 then [224 + n / 4096, 128 + n / 64 % 64, 128 + n % 64]
  else [240 + n / 262144, 128 + n / 4096 % 64, 128 + n / 64 % 64, 128 + n % 64]

/-- UTF-8 encoding of a string (as its character list). -/
def utf8Encode (s : List Char) : List Nat := (s.map utf8EncodeChar).flatten

/-- Consumes one continuation byte, yielding its 6 payload bits. -/
def tomaCont (r : List Nat) : Option (Nat × List Nat) :=
  match r with
  | [] => none
  | b :: t => if 128 ≤ b ∧ b < 192 then some (b - 128, t) else none

/-- Strict UTF-8 decoding of one scalar: rejects bad lead bytes, bad
continuation bytes, overlong forms, surrogates and out-of-range values,
as Python's strict `decode('utf-8')` does. -/
def utf8DecodeChar (bs : List Nat) : Option (Char × List Nat) :=
  match bs with
  | [] => none
  | b0 :: r =>
    if b0 < 128 then some (Char.ofNat b0, r)
    else if b0 < 192 then none
    else if b0 < 224 then
      (tomaCont r).bind fun p1 =>
        let n := (b0 - 192) * 64 + p1.1
        if 128 ≤ n then some (Char.ofNat n, p1.2) else none
    else if b0 < 240 then
      (tomaCont r).bind fun p1 =>
        (tomaCont p1.2).bind fun p2 =>
          let n := (b0 - 224) * 4096 + p1.1 * 64 + p2.1
          if 2048 ≤ n ∧ (n < 55296 ∨ 57344 ≤ n) then some (Char.ofNat n, p2.2) else none
    else if b0 < 245 then
      (tomaCont r).bind fun p1 =>
        (tomaCont p1.2).bind fun p2 =>
          (tomaCont p2.2).bind fun p3 =>
            let n := (b0 - 240) * 262144 + p1.1 * 4096 + p2.1 * 64 + p3.1
            if 65536 ≤ n ∧ n < 1114112 then some (Char.ofNat n, p3.2) else none
    else none

/-- Fuel-bounded decoding loop; any fuel at or above the byte count is
enough. -/
def utf8DecodeAux : Nat → List Nat → Option (List Char)
  | _, [] => some []
  | 0, _ :: _ => none
  | fuel + 1, b :: t =>
    (utf8DecodeChar (b :: t)).bind fun p =>
      (utf8DecodeAux fuel p.2).map fun cs => p.1 :: cs

/-- Model of `bytes.decode('utf-8')`: `none` where Python raises
`UnicodeDecodeError`. -/
def utf8Decode (bs : List Nat) : Option (List Char) := utf8DecodeAux bs.length bs

theorem utf8DecodeChar_encode (c : Char) (r : List Nat) :
    utf8DecodeChar (utf8EncodeChar c ++ r) = some (c, r) := by
  have hv := char_valido c
  by_cases h1 : c.toNat < 128
  · have he : utf8EncodeChar c = [c.toNat] := by rw [utf8EncodeChar, if_pos h1]
    rw [he, List.singleton_append, utf8DecodeChar, if_pos h1, Char.ofNat_toNat]
  by_cases h2 : c.toNat < 2048
  · have he : utf8EncodeChar c = [192 + c.toNat / 64, 128 + c.toNat % 64] := by
      rw [utf8EncodeChar, if_neg h1, if_pos h2]
    rw [he, List.cons_append, List.cons_append, List.nil_append, utf8DecodeChar,
      if_neg (by omega), if_neg (by omega), if_pos (by omega)]
    rw [tomaCont, if_pos (by omega : 128 ≤ 128 + c.toNat % 64 ∧ 128 + c.toNat % 64 < 192)]
    rw [Option.some_bind]
    dsimp only
    rw [if_pos (by omega)]
    have harg : (192 + c.toNat / 64 - 192) * 64 + (128 + c.toNat % 64 - 128) = c.toNat := by
      omega
    rw [harg, Char.ofNat_toNat]
  by_cases h3 : c.toNat < 65536
  · have he : utf8EncodeChar c =
        [224 + c.toNat / 4096, 128 + c.toNat / 64 % 64, 128 + c.toNat % 64] := by
      rw [utf8EncodeChar, if_neg h1, if_neg h2, if_pos h3]
    rw [he, List.cons_append, List.cons_append, List.cons_append, List.nil_append,
      utf8DecodeChar, if_neg (by omega), if_neg (by omega), if_neg (by omega),
      if_pos (by omega)]
    rw [tomaCont, if_pos (by omega : 128 ≤ 128 + c.toNat / 64 % 64 ∧ 128 + c.toNat / 64 % 64 < 192)]
    rw [Option.some_bind]
    dsimp only
    rw [tomaCont, if_pos (by omega : 128 ≤ 128 + c.toNat % 64 ∧ 128 + c.toNat % 64 < 192)]
    rw [Option.some_bind]
    dsimp only
    have harg : (224 + c.toNat / 4096 - 224) * 4096 + (128 + c.toNat / 64 % 64 - 128) * 64 +
        (128 + c.toNat % 64 - 128) = c.toNat := by omega
    rw [harg, if_pos (by omega : 2048 ≤ c.toNat ∧ (c.toNat < 55296 ∨ 57344 ≤ c.toNat)),
      Char.ofNat_toNat]
  · have he : utf8EncodeChar c =
        [240 + c.toNat / 262144, 128 + c.toNat / 4096 % 64, 128 + c.toNat / 64 % 64,
          128 + c.toNat % 64] := by
      rw [utf8EncodeChar, if_neg h1, if_neg h2, if_neg h3]
    have hmax : c.toNat < 1114112 := by omega
    rw [he, List.cons_append, List.cons_append, List.cons_append, List.cons_append,
      List.nil_append, utf8DecodeChar, if_neg (by omega), if_neg (by omega),
      if_neg (by omega), if_neg (by omega), if_pos (by omega)]
    rw [tomaCont, if_pos (by omega : 128 ≤ 128 + c.toNat / 4096 % 64 ∧ 128 + c.toNat / 4096 % 64 < 192)]
    rw [Option.some_bind]
    dsimp only
    rw [tomaCont, if_pos (by omega : 128 ≤ 128 + c.toNat / 64 % 64 ∧ 128 + c.toNat / 64 % 64 < 192)]
    rw [Option.some_bind]
    dsimp only
    rw [tomaCont, if_pos (by omega : 128 ≤ 128 + c.toNat % 64 ∧ 128 + c.toNat % 64 < 192)]
    rw [Option.some_bind]
    dsimp only
    have harg : (240 + c.toNat / 262144 - 240) * 262144 + (128 + c.toNat / 4096 % 64 - 128) * 4096 +
        (128 + c.toNat / 64 % 64 - 128) * 64 + (128 + c.toNat % 64 - 128) = c.toNat := by omega
    rw [harg, if_pos (by omega : 65536 ≤ c.toNat ∧ c.toNat < 1114112), Char.ofNat_toNat]

theorem utf8EncodeChar_ne_nil (c : Char) : utf8EncodeChar c ≠ [] := by
  rw [utf8EncodeChar]
  split_ifs <;> simp

theorem utf8Encode_cons (c : Char) (cs : List Char) :
    utf8Encode (c :: cs) = utf8EncodeChar c ++ utf8Encode cs := by
  simp [utf8Encode]

theorem utf8Encode_longitud (s : List Char) : s.length ≤ (utf8Encode s).length := by
  induction s with
  | nil => simp [utf8Encode]
  | cons c cs ih =>
    rw [utf8Encode_cons, List.length_append]
    have h1 : 0 < (utf8EncodeChar c).length :=
      List.length_pos.mpr (utf8EncodeChar_ne_nil c)
    simp only [List.length_cons]
    omega

theorem utf8DecodeAux_encode (s : List Char) : ∀ fuel, s.length ≤ fuel →
    utf8DecodeAux fuel (utf8Encode s) = some s := by
  induction s with
  | nil => intro fuel _; cases fuel <;> rfl
  | cons c cs ih =>
    intro fuel h
    obtain ⟨f, rfl⟩ : ∃ f, fuel = f + 1 :=
      ⟨fuel - 1, by simp only [List.length_cons] at h; omega⟩
    obtain ⟨b, t, hbt⟩ : ∃ b t, utf8EncodeChar c = b :: t := by
      cases hx : utf8EncodeChar c with
      | nil => exact absurd hx (utf8EncodeChar_ne_nil c)
      | cons b t => exact ⟨b, t, rfl⟩
    rw [utf8Encode_cons, hbt, List.cons_append, utf8DecodeAux]
    rw [← List.cons_append, ← hbt, utf8DecodeChar_encode c, Option.some_bind]
    rw [ih f (by simp only [List.length_cons] at h; omega)]
    rfl

/-- UTF-8 decoding is a left inverse of UTF-8 encoding. -/
theorem utf8Decode_encode (s : List Char) : utf8Decode (utf8Encode s) = some s :=
  utf8DecodeAux_encode s _ (utf8Encode_longitud s)

/-! ### Length-prefixed framing, from `_enviar_mensaje_raw`,
`_manejar_cliente` and `_recibir_completo` -/

/-- `struct.pack('!I', n)`: the four big-endian bytes of `n < 2^32`. -/
def pack4 (n : Nat) : List Nat :=
  [n / 16777216 % 256, n / 65536 % 256, n / 256 % 256, n % 256]

/-- `struct.unpack('!I', bs)[0]` on a four-byte block. -/
def unpack4 (bs : List Nat) : Nat := bs.foldl (fun a b => a * 256 + b) 0

/-- Model of `_recibir_completo(socket, longitud)`: reads exactly
`longitud` bytes from the stream (the list of bytes available before the
peer closes), or `None` when the connection closes first.  The
fragment-reassembly loop of the source is represented by taking a prefix
of the stream. -/
def recibir_completo (stream : List Nat) (longitud : Nat) : Option (List Nat × List Nat) :=
  if longitud ≤ stream.length then some (stream.take longitud, stream.drop longitud)
  else none

/-- Model of the body of `_enviar_mensaje_raw`: serialize, UTF-8 encode,
prefix the length.  `none` models `struct.pack('!I', ...)` raising on a
length of `2^32` or more (caught and turned into a send failure). -/
def enviar_raw_octetos (m : JObj) : Option (List Nat) :=
  let cuerpo := utf8Encode (json_dumps m)
  if cuerpo.length < 4294967296 then some (pack4 cuerpo.length ++ cuerpo) else none

/-- Model of the frame-reading steps of `_manejar_cliente`: read 4
length bytes, read exactly that many body bytes, decode UTF-8,
deserialize JSON.  Returns the decoded message and the unconsumed rest
of the stream. -/
def decodificarTrama (stream : List Nat) : Option (JObj × List Nat) :=
  (recibir_completo stream 4).bind fun pl =>
    (recibir_completo pl.2 (unpack4 pl.1)).bind fun pm =>
      (utf8Decode pm.1).bind fun texto =>
        (json_loads texto).map fun o => (o, pm.2)

theorem pack4_longitud (n : Nat) : (pack4 n).length = 4 := rfl

theorem unpack4_pack4 (n : Nat) (h : n < 4294967296) : unpack4 (pack4 n) = n := by
  simp only [pack4, unpack4, List.foldl_cons, List.foldl_nil]
  omega

theorem recibir_completo_exacto (xs ys : List Nat) :
    recibir_completo (xs ++ ys) xs.length = some (xs, ys) := by
  rw [recibir_completo, if_pos (by simp)]
  rw [List.take_left, List.drop_left]

theorem recibir_completo_4 (n : Nat) (ys : List Nat) :
    recibir_completo (pack4 n ++ ys) 4 = some (pack4 n, ys) := by
  have h := recibir_completo_exacto (pack4 n) ys
  rwa [pack4_longitud] at h

/-- C3: framing a structured message as a 4-byte big-endian length
prefix over the UTF-8 JSON bytes (`_enviar_mensaje_raw`), then reading
the prefix, reading exactly that many bytes and deserializing
(`_manejar_cliente` / `_recibir_completo`), yields the message back
unchanged, leaving the rest of the stream untouched. -/
theorem trama_codifica_decodifica (m : JObj) (resto : List Nat)
    (h : (utf8Encode (json_dumps m)).length < 4294967296) :
    ∃ enc, enviar_raw_octetos m = some enc ∧
      decodificarTrama (enc ++ resto) = some (m, resto) := by
  refine ⟨pack4 (utf8Encode (json_dumps m)).length ++ utf8Encode (json_dumps m), ?_, ?_⟩
  · simp only [enviar_raw_octetos]
    rw [if_pos h]
  · rw [decodificarTrama, List.append_assoc, recibir_completo_4, Option.some_bind]
    dsimp only
    rw [unpack4_pack4 _ h, recibir_completo_exacto, Option.some_bind]
    dsimp only
    rw [utf8Decode_encode, Option.some_bind, json_loads_dumps]
    rfl

/-- A concrete ACK message used as the round-trip witness. -/
def mensajeTestigo : JObj := [("tipo", JVal.jstr "ACK"), ("mensaje_id", JVal.jnat 7)]

/-- C3 witness: the round trip evaluated at a concrete ACK frame. -/
theorem trama_codifica_decodifica_testigo :
    (utf8Encode (json_dumps mensajeTestigo)).length < 4294967296 ∧
      ∃ enc, enviar_raw_octetos mensajeTestigo = some enc ∧
        decodificarTrama (enc ++ [9, 9]) = some (mensajeTestigo, [9, 9]) :=
  ⟨by decide, trama_codifica_decodifica mensajeTestigo [9, 9] (by decide)⟩

/-! ### State model of `ComunicacionTCPConfiable`

Stateful methods become explicit state-passing functions.  Transport
and timing effects are recorded in a trace of `Accion`s; the outcome of
each `sendall` and of each connection attempt is an oracle in
`Entorno`, since it depends on the peer and the network. -/

/-- The `self.stats` dictionary. -/
structure Stats where
  mensajes_enviados : Nat
  mensajes_recibidos : Nat
  acks_enviados : Nat
  acks_recibidos : Nat
  reconexiones : Nat
  errores : Nat
deriving DecidableEq, Repr

/-- All six counters at zero, as `__init__` builds them. -/
def statsCero : Stats := ⟨0, 0, 0, 0, 0, 0⟩

/-- The reliability configuration set in `__init__` and never
reassigned: `timeout_ack = 5.0`, `max_reintentos = 3`,
`intervalo_heartbeat = 10.0` (seconds, as naturals). -/
structure Config where
  timeout_ack : Nat
  max_reintentos : Nat
  intervalo_heartbeat : Nat
deriving DecidableEq, Repr

/-- The default configuration of the source. -/
def configFuente : Config := ⟨5, 3, 10⟩

/-- The mutable attributes of a `ComunicacionTCPConfiable` object.
`tiene_socket` models `socket_cliente is not None`; `tiene_callback`
models `callback_mensaje is not None`.  The received-ACK set stores the
raw `mensaje.get('mensaje_id')` values (which may be absent). -/
structure Estado where
  nombre : String
  es_servidor : Bool
  conexion_activa : Bool
  tiene_socket : Bool
  ejecutando : Bool
  tiene_callback : Bool
  mensajes_pendientes : List (Nat × JObj)
  acks_recibidos : List (Option JVal)
  mensaje_id : Nat
  stats : Stats
deriving DecidableEq, Repr

/-- The state `__init__` produces: no sockets, nothing pending, all
counters at zero. -/
def estado_inicial (nombre : String) (es_servidor : Bool) : Estado :=
  { nombre := nombre, es_servidor := es_servidor, conexion_activa := false,
    tiene_socket := false, ejecutando := false, tiene_callback := false,
    mensajes_pendientes := [], acks_recibidos := [], mensaje_id := 0,
    stats := statsCero }

/-- Python `==` between two carried values: `True == 1` and
`False == 0` (Python `bool` is an `int`), no other cross-type
equality among the value shapes the protocol carries. -/
def pyEqVal : JVal → JVal → Bool
  | .jstr a, .jstr b => a == b
  | .jnat a, .jnat b => a == b
  | .jbool a, .jbool b => a == b
  | .jbool a, .jnat b => (cond a 1 0) == b
  | .jnat a, .jbool b => a == (cond b 1 0)
  | _, _ => false

/-- Python `==` lifted to possibly-missing values (`None == None`). -/
def pyEq : Option JVal → Option JVal → Bool
  | none, none => true
  | some a, some b => pyEqVal a b
  | _, _ => false

/-- Python truthiness of a `dict.get` result, as in `if mensaje_id:`. -/
def esVerdadero : Option JVal → Bool
  | none => false
  | some (.jstr s) => !(s == "")
  | some (.jnat n) => !(n == 0)
  | some (.jbool b) => b

/-- `d[k] = v` on the pending-message dict: replaces in place or
appends (Python dicts preserve insertion order). -/
def dictInserta (d : List (Nat × JObj)) (k : Nat) (v : JObj) : List (Nat × JObj) :=
  if d.any (fun p => p.1 == k) then d.map (fun p => if p.1 == k then (k, v) else p)
  else d ++ [(k, v)]

/-- `mensajes_pendientes[id]` lookup by the integer key. -/
def buscaPendiente (d : List (Nat × JObj)) (id : Nat) : Option JObj :=
  (d.find? fun p => p.1 == id).map Prod.snd

/-- `del mensajes_pendientes[id]` by the integer key. -/
def borraPendiente (d : List (Nat × JObj)) (id : Nat) : List (Nat × JObj) :=
  d.filter fun p => !(p.1 == id)

/-- Whether a received `mensaje_id` value equals (by Python `==`) the
integer key `k` of a pending entry. -/
def claveCoincide (v : JVal) (k : Nat) : Bool := pyEqVal v (.jnat k)

/-- `mensaje_id in self.mensajes_pendientes` for a received value. -/
def enPendientes (d : List (Nat × JObj)) (idv : Option JVal) : Bool :=
  match idv with
  | none => false
  | some v => d.any fun p => claveCoincide v p.1

/-- `del self.mensajes_pendientes[mensaje_id]` for a received value. -/
def borraPendientePy (d : List (Nat × JObj)) (idv : Option JVal) : List (Nat × JObj) :=
  match idv with
  | none => d
  | some v => d.filter fun p => !(claveCoincide v p.1)

/-- `x in self.acks_recibidos` (a Python set, equality by `==`). -/
def conjContiene (s : List (Option JVal)) (x : Option JVal) : Bool :=
  s.any fun y => pyEq y x

/-- `self.acks_recibidos.add(x)`. -/
def conjAgrega (s : List (Option JVal)) (x : Option JVal) : List (Option JVal) :=
  if conjContiene s x then s else s ++ [x]

/-- `self.acks_recibidos.remove(x)`. -/
def conjQuita (s : List (Option JVal)) (x : Option JVal) : List (Option JVal) :=
  s.filter fun y => !(pyEq y x)

/-- `mensaje.get(clave)` on a decoded message. -/
def busca (o : JObj) (clave : String) : Option JVal :=
  (o.find? fun p => p.1 == clave).map Prod.snd

/-- Observable effects of a run, in order. -/
inductive Accion where
  | enviar (m : JObj)
  | entregar (contenido : Option JVal) (remitente : Option JVal)
  | imprimirMensaje (contenido : Option JVal) (remitente : Option JVal)
  | esperar (segundos : Nat)
  | intentoConexion (exito : Bool)
  | registrarEvento (etiqueta : String)
deriving DecidableEq, Repr

/-- Oracles for the effects whose outcome the peer and the network
decide: whether a `sendall` succeeds, and whether the connection
attempt made at a given retry count succeeds. -/
structure Entorno where
  escrituraOk : Bool
  exitosConexion : Nat → Bool

/-- The `while` body of `_conectar_servidor`, fuel-bounded (the fuel
only bounds iterations; the loop's own condition
`ejecutando and reintentos < max_reintentos` is checked inside, so any
fuel at or above `max_reintentos - reintentos` is exact).  Each attempt
first creates a socket object (`socket_cliente` is set from then on),
then connects; on success `conexion_activa` is set and, for a retry,
`reconexiones` is incremented; on failure the retry counter grows and,
with retries left, an exponential backoff `2 ** reintentos` is slept;
when retries run out `errores` is incremented. -/
def conectarBucle (cfg : Config) (exitos : Nat → Bool) :
    Nat → Nat → Estado → Bool × Estado × List Accion
  | 0, _, st => (false, st, [])
  | fuel + 1, reintentos, st =>
    if st.ejecutando ∧ reintentos < cfg.max_reintentos then
      let st1 := { st with tiene_socket := true }
      if exitos reintentos then
        let st2 := { st1 with conexion_activa := true }
        let st3 := if 0 < reintentos then
            { st2 with stats := { st2.stats with reconexiones := st2.stats.reconexiones + 1 } }
          else st2
        (true, st3, [Accion.intentoConexion true])
      else
        if reintentos + 1 < cfg.max_reintentos then
          let resto := conectarBucle cfg exitos fuel (reintentos + 1) st1
          (resto.1, resto.2.1,
            Accion.intentoConexion false :: Accion.esperar (2 ^ (reintentos + 1)) :: resto.2.2)
        else
          (false, { st1 with stats := { st1.stats with errores := st1.stats.errores + 1 } },
            [Accion.intentoConexion false])
    else (false, st, [])

/-- `_conectar_servidor`. -/
def conectar_servidor (cfg : Config) (exitos : Nat → Bool) (st : Estado) :
    Bool × Estado × List Accion :=
  conectarBucle cfg exitos cfg.max_reintentos 0 st

/-- `_manejar_error_conexion`: mark inactive, drop the socket; a
running client then sleeps 2 seconds and redials with
`_conectar_servidor`. -/
def manejar_error_conexion (cfg : Config) (ent : Entorno) (st : Estado) :
    Estado × List Accion :=
  let st1 := { st with conexion_activa := false, tiene_socket := false }
  if ¬st1.es_servidor ∧ st1.ejecutando then
    let resto := conectar_servidor cfg ent.exitosConexion st1
    (resto.2.1, Accion.esperar 2 :: resto.2.2)
  else (st1, [])

/-- `_enviar_mensaje_raw`: serialize, frame, `sendall`.  A raised
exception (an oversized frame in `struct.pack`, or a failed write) is
caught: `_manejar_error_conexion` runs, `errores` is incremented and
`False` is returned. -/
def enviar_mensaje_raw (cfg : Config) (ent : Entorno) (m : JObj) (st : Estado) :
    Estado × List Accion × Bool :=
  match enviar_raw_octetos m with
  | some _octetos =>
    if ent.escrituraOk then (st, [Accion.enviar m], true)
    else
      let fallo := manejar_error_conexion cfg ent st
      ({ fallo.1 with stats := { fallo.1.stats with errores := fallo.1.stats.errores + 1 } },
        fallo.2, false)
  | none =>
    let fallo := manejar_error_conexion cfg ent st
    ({ fallo.1 with stats := { fallo.1.stats with errores := fallo.1.stats.errores + 1 } },
      fallo.2, false)

/-- The DATA message `enviar_mensaje` builds (the `timestamp` float is
abstracted to a natural `ahora`). -/
def mensajeDe (nombre : String) (id : Nat) (contenido : JVal) (ahora : Nat)
    (requiere_ack : Bool) : JObj :=
  [("tipo", JVal.jstr "MENSAJE"), ("id", JVal.jnat id), ("contenido", contenido),
    ("remitente", JVal.jstr nombre), ("timestamp", JVal.jnat ahora),
    ("requiere_ack", JVal.jbool requiere_ack)]

/-- The dispatch on `mensaje.get('tipo')` inside
`_procesar_mensaje_recibido`, after a successful `json.loads`.  In the
single-threaded model the receive loop is the only mutator while this
runs.  Effects, in order: the entry log line, then the branch's own
sends and the delivery. -/
def procesar_objeto (cfg : Config) (ent : Entorno) (ahora : Nat) (st : Estado)
    (mensaje : JObj) : Estado × List Accion :=
  let tipo := busca mensaje "tipo"
  let str := { st with stats := { st.stats with mensajes_recibidos := st.stats.mensajes_recibidos + 1 } }
  let registro := Accion.registrarEvento "recibido"
  if tipo = some (JVal.jstr "HEARTBEAT") then
    let respuesta : JObj := [("tipo", JVal.jstr "HEARTBEAT_RESPONSE"), ("timestamp", JVal.jnat ahora)]
    let envio := enviar_mensaje_raw cfg ent respuesta str
    (envio.1, registro :: envio.2.1)
  else if tipo = some (JVal.jstr "HEARTBEAT_RESPONSE") then
    (str, [registro])
  else if tipo = some (JVal.jstr "ACK") then
    let idv := busca mensaje "mensaje_id"
    let st1 := { str with acks_recibidos := conjAgrega str.acks_recibidos idv,
                          stats := { str.stats with acks_recibidos := str.stats.acks_recibidos + 1 } }
    let st2 := if enPendientes st1.mensajes_pendientes idv then
        { st1 with mensajes_pendientes := borraPendientePy st1.mensajes_pendientes idv }
      else st1
    (st2, [registro])
  else if tipo = some (JVal.jstr "MENSAJE") then
    let idv := busca mensaje "id"
    let trasAck :=
      if esVerdadero idv then
        match idv with
        | some v =>
          let ack : JObj := [("tipo", JVal.jstr "ACK"), ("mensaje_id", v)]
          let envio := enviar_mensaje_raw cfg ent ack str
          ({ envio.1 with stats := { envio.1.stats with acks_enviados := envio.1.stats.acks_enviados + 1 } },
            envio.2.1)
        | none => (str, [])
      else (str, [])
    let entrega :=
      if trasAck.1.tiene_callback then
        Accion.entregar (busca mensaje "contenido") (busca mensaje "remitente")
      else
        Accion.imprimirMensaje (busca mensaje "contenido") (busca mensaje "remitente")
    (trasAck.1, registro :: trasAck.2 ++ [entrega])
  else
    (str, [registro])

/-- `_procesar_mensaje_recibido`: decode the JSON text; a
`json.JSONDecodeError` is caught, logged and counted, and the method
returns normally. -/
def procesar_mensaje_recibido (cfg : Config) (ent : Entorno) (ahora : Nat) (st : Estado)
    (texto : List Char) : Estado × List Accion :=
  match json_loads texto with
  | none =>
    ({ st with stats := { st.stats with errores := st.stats.errores + 1 } },
      [Accion.registrarEvento "json_invalido"])
  | some mensaje => procesar_objeto cfg ent ahora st mensaje

/-- The `while reintentos < max_reintentos` body of `_esperar_ack`,
fuel-bounded (any fuel at or above `max_reintentos - reintentos` is
exact, the condition being checked inside).  In the single-threaded
model the ACK set does not change while the sender polls, so a round
either finds its ACK at once (no wait) or waits out the full
`timeout_ack`; on a timeout with retries left and the entry still
pending, the retained message is retransmitted verbatim; when the loop
ends the pending entry is deleted and `False` returned. -/
def esperarAckBucle (cfg : Config) (ent : Entorno) (id : Nat) :
    Nat → Nat → Estado → Estado × List Accion × Bool
  | 0, _, st =>
    ({ st with mensajes_pendientes := borraPendiente st.mensajes_pendientes id }, [], false)
  | fuel + 1, reintentos, st =>
    if reintentos < cfg.max_reintentos then
      if conjContiene st.acks_recibidos (some (JVal.jnat id)) then
        ({ st with acks_recibidos := conjQuita st.acks_recibidos (some (JVal.jnat id)) },
          [], true)
      else
        if reintentos + 1 < cfg.max_reintentos then
          match buscaPendiente st.mensajes_pendientes id with
          | some m =>
            let envio := enviar_mensaje_raw cfg ent m st
            let resto := esperarAckBucle cfg ent id fuel (reintentos + 1) envio.1
            (resto.1, Accion.esperar cfg.timeout_ack :: envio.2.1 ++ resto.2.1, resto.2.2)
          | none =>
            let resto := esperarAckBucle cfg ent id fuel (reintentos + 1) st
            (resto.1, Accion.esperar cfg.timeout_ack :: resto.2.1, resto.2.2)
        else
          let resto := esperarAckBucle cfg ent id fuel (reintentos + 1) st
          (resto.1, Accion.esperar cfg.timeout_ack :: resto.2.1, resto.2.2)
    else
      ({ st with mensajes_pendientes := borraPendiente st.mensajes_pendientes id }, [], false)

/-- `_esperar_ack`. -/
def esperar_ack (cfg : Config) (ent : Entorno) (id : Nat) (st : Estado) :
    Estado × List Accion × Bool :=
  esperarAckBucle cfg ent id cfg.max_reintentos 0 st

/-- `enviar_mensaje(contenido, requiere_ack)`. -/
def enviar_mensaje (cfg : Config) (ent : Entorno) (ahora : Nat) (contenido : JVal)
    (requiere_ack : Bool) (st : Estado) : Estado × List Accion × Bool :=
  if ¬st.conexion_activa ∨ ¬st.tiene_socket then
    (st, [Accion.registrarEvento "sin_conexion_activa"], false)
  else
    let st1 := { st with mensaje_id := st.mensaje_id + 1 }
    let m := mensajeDe st1.nombre st1.mensaje_id contenido ahora requiere_ack
    let envio := enviar_mensaje_raw cfg ent m st1
    if envio.2.2 then
      let st3 := { envio.1 with
        stats := { envio.1.stats with mensajes_enviados := envio.1.stats.mensajes_enviados + 1 } }
      if requiere_ack then
        let st4 := { st3 with
          mensajes_pendientes := dictInserta st3.mensajes_pendientes st1.mensaje_id m }
        let resto := esperar_ack cfg ent st1.mensaje_id st4
        (resto.1, envio.2.1 ++ resto.2.1, resto.2.2)
      else (st3, envio.2.1, true)
    else (envio.1, envio.2.1, false)

/-- `_limpiar_conexion`: mark the connection inactive (the socket
object is closed but the attribute itself is not cleared). -/
def limpiar_conexion (st : Estado) : Estado := { st with conexion_activa := false }

/-- Result of one iteration of the `_manejar_cliente` receive loop. -/
inductive PasoRecepcion where
  | cerrado (st : Estado) (acciones : List Accion)
  | continuar (st : Estado) (restante : List Nat) (acciones : List Accion)
deriving DecidableEq, Repr

/-- One iteration of `_manejar_cliente`: read the 4-byte length, read
the body, process.  A falsy read (`None` on a closed stream, or the
empty byte string for a zero-length body) breaks the loop and the
`finally` block cleans the connection up; a `UnicodeDecodeError`
escapes to the method's `except`, which logs it and counts an error
before the same cleanup. -/
def manejar_paso (cfg : Config) (ent : Entorno) (ahora : Nat) (st : Estado)
    (stream : List Nat) : PasoRecepcion :=
  if ¬(st.ejecutando ∧ st.conexion_activa) then .cerrado (limpiar_conexion st) []
  else
    match recibir_completo stream 4 with
    | none => .cerrado (limpiar_conexion st) []
    | some pl =>
      match recibir_completo pl.2 (unpack4 pl.1) with
      | none => .cerrado (limpiar_conexion st) []
      | some pm =>
        if pm.1 = [] then .cerrado (limpiar_conexion st) []
        else
          match utf8Decode pm.1 with
          | none =>
            .cerrado
              (limpiar_conexion
                { st with stats := { st.stats with errores := st.stats.errores + 1 } })
              [Accion.registrarEvento "error_decodificacion"]
          | some texto =>
            let paso := procesar_mensaje_recibido cfg ent ahora st texto
            .continuar paso.1 pm.2 paso.2

/-! ### Helper lemmas about the state functions -/

theorem enviar_raw_exito (cfg : Config) (ent : Entorno) (m : JObj) (st : Estado)
    (hw : ent.escrituraOk = true)
    (hm : (utf8Encode (json_dumps m)).length < 4294967296) :
    enviar_mensaje_raw cfg ent m st = (st, [Accion.enviar m], true) := by
  have h1 : enviar_raw_octetos m
      = some (pack4 (utf8Encode (json_dumps m)).length ++ utf8Encode (json_dumps m)) := by
    simp only [enviar_raw_octetos]
    rw [if_pos hm]
  rw [enviar_mensaje_raw, h1]
  rw [hw]
  rfl

/-! ### C9, C6, C5, C10 -/

/-- C9: a `send` while no connection is active returns `False` at once
and leaves every observable attribute unchanged: no id is allocated,
nothing is written, nothing becomes pending, no counter moves (the
whole state is returned as it was, and the trace holds only the warning
log). -/
theorem enviar_sin_conexion (cfg : Config) (ent : Entorno) (ahora : Nat) (contenido : JVal)
    (requiere_ack : Bool) (st : Estado)
    (h : st.conexion_activa = false ∨ st.tiene_socket = false) :
    enviar_mensaje cfg ent ahora contenido requiere_ack st
      = (st, [Accion.registrarEvento "sin_conexion_activa"], false) := by
  rw [enviar_mensaje, if_pos (by rcases h with h | h <;> simp [h])]

/-- C9 witness: a concrete fresh (unconnected) client state. -/
theorem enviar_sin_conexion_testigo :
    ((estado_inicial "Cliente" false).conexion_activa = false ∨
      (estado_inicial "Cliente" false).tiene_socket = false) ∧
    enviar_mensaje configFuente ⟨true, fun _ => false⟩ 7 (JVal.jstr "hola") true
        (estado_inicial "Cliente" false)
      = (estado_inicial "Cliente" false, [Accion.registrarEvento "sin_conexion_activa"], false) :=
  ⟨Or.inl rfl,
    enviar_sin_conexion configFuente ⟨true, fun _ => false⟩ 7 (JVal.jstr "hola") true
      (estado_inicial "Cliente" false) (Or.inl rfl)⟩

/-- C6: a `send` with `requiere_ack=False` on an active connection
whose raw write succeeds returns `True` immediately: the trace is the
single write — no wait, no retransmission — no pending entry is
registered and the ACK set is never consulted or changed (the final
state differs from the initial one only in the allocated id and the
sent counter). -/
theorem enviar_sin_ack_inmediato (cfg : Config) (ent : Entorno) (ahora : Nat)
    (contenido : JVal) (st : Estado)
    (hact : st.conexion_activa = true) (hsock : st.tiene_socket = true)
    (hw : ent.escrituraOk = true)
    (hlen : (utf8Encode (json_dumps
        (mensajeDe st.nombre (st.mensaje_id + 1) contenido ahora false))).length
      < 4294967296) :
    enviar_mensaje cfg ent ahora contenido false st
      = ({ st with
            mensaje_id := st.mensaje_id + 1
            stats := { st.stats with
              mensajes_enviados := st.stats.mensajes_enviados + 1 } },
          [Accion.enviar (mensajeDe st.nombre (st.mensaje_id + 1) contenido ahora false)],
          true) := by
  have hraw := enviar_raw_exito cfg ent
    (mensajeDe st.nombre (st.mensaje_id + 1) contenido ahora false)
    { st with mensaje_id := st.mensaje_id + 1 } hw hlen
  rw [enviar_mensaje, if_neg (by simp [hact, hsock])]
  dsimp only
  rw [hraw]
  rfl

set_option maxRecDepth 8000 in
/-- C6 witness: a connected client sending an un-acknowledged message. -/
theorem enviar_sin_ack_inmediato_testigo :
    enviar_mensaje configFuente ⟨true, fun _ => false⟩ 9 (JVal.jstr "hola") false
        { estado_inicial "Cliente" false with
            conexion_activa := true, tiene_socket := true, ejecutando := true }
      = ({ estado_inicial "Cliente" false with
            conexion_activa := true, tiene_socket := true, ejecutando := true
            mensaje_id := 1
            stats := { statsCero with mensajes_enviados := 1 } },
          [Accion.enviar (mensajeDe "Cliente" 1 (JVal.jstr "hola") 9 false)], true) := by
  have h := enviar_sin_ack_inmediato configFuente ⟨true, fun _ => false⟩ 9 (JVal.jstr "hola")
    { estado_inicial "Cliente" false with
        conexion_activa := true, tiene_socket := true, ejecutando := true }
    rfl rfl rfl (by decide)
  exact h

/-- C5: an ACK whose id matches no pending entry is processed without
error: the received counter and ACK counter move, the id joins the ACK
set, and `mensajes_pendientes` is returned exactly as it was — no entry
is touched and no exception path (the error counter) is taken. -/
theorem ack_sin_pendiente (cfg : Config) (ent : Entorno) (ahora : Nat) (st : Estado)
    (mensaje : JObj)
    (htipo : busca mensaje "tipo" = some (JVal.jstr "ACK"))
    (hno : enPendientes st.mensajes_pendientes (busca mensaje "mensaje_id") = false) :
    procesar_objeto cfg ent ahora st mensaje
      = ({ st with
            acks_recibidos := conjAgrega st.acks_recibidos (busca mensaje "mensaje_id")
            stats := { st.stats with
              mensajes_recibidos := st.stats.mensajes_recibidos + 1
              acks_recibidos := st.stats.acks_recibidos + 1 } },
          [Accion.registrarEvento "recibido"]) := by
  rw [procesar_objeto]
  rw [htipo]
  rw [if_neg (by decide), if_neg (by decide), if_pos rfl]
  simp only [hno, Bool.false_eq_true, if_false]

/-- C5 witness: an ACK for id 9 against a state whose only pending
entry has id 1. -/
theorem ack_sin_pendiente_testigo :
    (busca [("tipo", JVal.jstr "ACK"), ("mensaje_id", JVal.jnat 9)] "tipo"
        = some (JVal.jstr "ACK")) ∧
    procesar_objeto configFuente ⟨true, fun _ => false⟩ 3
        { estado_inicial "Servidor" true with
            mensajes_pendientes := [(1, [("tipo", JVal.jstr "MENSAJE")])] }
        [("tipo", JVal.jstr "ACK"), ("mensaje_id", JVal.jnat 9)]
      = ({ estado_inicial "Servidor" true with
            mensajes_pendientes := [(1, [("tipo", JVal.jstr "MENSAJE")])]
            acks_recibidos := [some (JVal.jnat 9)]
            stats := { statsCero with mensajes_recibidos := 1, acks_recibidos := 1 } },
          [Accion.registrarEvento "recibido"]) := by
  refine ⟨by decide, ?_⟩
  have h := ack_sin_pendiente configFuente ⟨true, fun _ => false⟩ 3
    { estado_inicial "Servidor" true with
        mensajes_pendientes := [(1, [("tipo", JVal.jstr "MENSAJE")])] }
    [("tipo", JVal.jstr "ACK"), ("mensaje_id", JVal.jnat 9)] (by decide) (by decide)
  exact h

/-- C10: a frame advertising a zero-length body makes
`_recibir_completo` return the empty byte string (not `None`), which
the receive loop's falsy check treats as a closed connection: the
iteration ends the loop with the connection cleaned up
(`conexion_activa = False`) and no message — malformed or otherwise —
is processed. -/
theorem trama_longitud_cero (cfg : Config) (ent : Entorno) (ahora : Nat) (st : Estado)
    (resto : List Nat) (hrun : st.ejecutando = true) (hact : st.conexion_activa = true) :
    recibir_completo resto 0 = some ([], resto) ∧
    manejar_paso cfg ent ahora st (pack4 0 ++ resto)
      = .cerrado { st with conexion_activa := false } [] := by
  constructor
  · rw [recibir_completo, if_pos (Nat.zero_le _)]
    simp
  · rw [manejar_paso, if_neg (by simp [hrun, hact])]
    rw [recibir_completo_4]
    simp only [unpack4_pack4 0 (by omega)]
    rw [recibir_completo, if_pos (Nat.zero_le _)]
    simp [limpiar_conexion]

/-- C10 witness: a zero-length frame followed by stray bytes. -/
theorem trama_longitud_cero_testigo :
    recibir_completo [7, 7] 0 = some ([], [7, 7]) ∧
    manejar_paso configFuente ⟨true, fun _ => false⟩ 0
        { estado_inicial "Cliente" false with
            conexion_activa := true, tiene_socket := true, ejecutando := true }
        (pack4 0 ++ [7, 7])
      = .cerrado { estado_inicial "Cliente" false with
            conexion_activa := false, tiene_socket := true, ejecutando := true } [] := by
  have h := trama_longitud_cero configFuente ⟨true, fun _ => false⟩ 0
    { estado_inicial "Cliente" false with
        conexion_activa := true, tiene_socket := true, ejecutando := true }
    [7, 7] rfl rfl
  exact h

/-- The four message kinds `_procesar_mensaje_recibido` dispatches on. -/
def tipoConocido (m : JObj) : Prop :=
  busca m "tipo" = some (JVal.jstr "HEARTBEAT") ∨
  busca m "tipo" = some (JVal.jstr "HEARTBEAT_RESPONSE") ∨
  busca m "tipo" = some (JVal.jstr "ACK") ∨
  busca m "tipo" = some (JVal.jstr "MENSAJE")

/-- C8: a frame whose payload is not valid JSON, or whose decoded kind
is none of HEARTBEAT / HEARTBEAT_RESPONSE / ACK / MENSAJE, is logged
and dropped: `_procesar_mensaje_recibido` returns normally with a log
entry as the only effect, nothing is delivered or answered, the pending
table and ACK set are untouched, and the receive loop continues to the
rest of the stream instead of terminating. -/
theorem mensaje_malformado_descartado (cfg : Config) (ent : Entorno) (ahora : Nat)
    (st : Estado) (texto : List Char) (resto : List Nat)
    (hrun : st.ejecutando = true) (hact : st.conexion_activa = true)
    (hne : utf8Encode texto ≠ [])
    (hlen : (utf8Encode texto).length < 4294967296)
    (hmal : json_loads texto = none ∨
      ∃ m, json_loads texto = some m ∧ ¬tipoConocido m) :
    ∃ st' etiqueta,
      manejar_paso cfg ent ahora st
          (pack4 (utf8Encode texto).length ++ (utf8Encode texto ++ resto))
        = .continuar st' resto [Accion.registrarEvento etiqueta] ∧
      st'.ejecutando = true ∧ st'.conexion_activa = true ∧
      st'.mensajes_pendientes = st.mensajes_pendientes ∧
      st'.acks_recibidos = st.acks_recibidos := by
  have hpaso : manejar_paso cfg ent ahora st
      (pack4 (utf8Encode texto).length ++ (utf8Encode texto ++ resto))
      = .continuar (procesar_mensaje_recibido cfg ent ahora st texto).1 resto
          (procesar_mensaje_recibido cfg ent ahora st texto).2 := by
    rw [manejar_paso, if_neg (by simp [hrun, hact])]
    rw [recibir_completo_4]
    simp only [unpack4_pack4 _ hlen]
    rw [recibir_completo_exacto]
    simp only
    rw [if_neg hne, utf8Decode_encode]
  rcases hmal with hjson | ⟨m, hm, htc⟩
  · have hproc : procesar_mensaje_recibido cfg ent ahora st texto
        = ({ st with stats := { st.stats with errores := st.stats.errores + 1 } },
            [Accion.registrarEvento "json_invalido"]) := by
      rw [procesar_mensaje_recibido, hjson]
    refine ⟨(procesar_mensaje_recibido cfg ent ahora st texto).1, "json_invalido",
      ?_, ?_, ?_, ?_, ?_⟩
    · rw [hpaso, hproc]
    · rw [hproc]; exact hrun
    · rw [hproc]; exact hact
    · rw [hproc]
    · rw [hproc]
  · simp only [tipoConocido, not_or] at htc
    obtain ⟨hk1, hk2, hk3, hk4⟩ := htc
    have hproc : procesar_mensaje_recibido cfg ent ahora st texto
        = ({ st with stats := { st.stats with
              mensajes_recibidos := st.stats.mensajes_recibidos + 1 } },
            [Accion.registrarEvento "recibido"]) := by
      rw [procesar_mensaje_recibido, hm]
      simp only [procesar_objeto]
      rw [if_neg hk1, if_neg hk2, if_neg hk3, if_neg hk4]
    refine ⟨(procesar_mensaje_recibido cfg ent ahora st texto).1, "recibido",
      ?_, ?_, ?_, ?_, ?_⟩
    · rw [hpaso, hproc]
    · rw [hproc]; exact hrun
    · rw [hproc]; exact hact
    · rw [hproc]
    · rw [hproc]

set_option maxRecDepth 8000 in
/-- C8 witness: a frame carrying the payload `basura`, which is not
JSON, against a running connected state. -/
theorem mensaje_malformado_descartado_testigo :
    (json_loads "basura".data = none) ∧
    ∃ st' etiqueta,
      manejar_paso configFuente ⟨true, fun _ => false⟩ 2
          { estado_inicial "Servidor" true with
              conexion_activa := true, tiene_socket := true, ejecutando := true }
          (pack4 (utf8Encode "basura".data).length ++ (utf8Encode "basura".data ++ [1, 2]))
        = .continuar st' [1, 2] [Accion.registrarEvento etiqueta] ∧
      st'.ejecutando = true ∧ st'.conexion_activa = true ∧
      st'.mensajes_pendientes
        = ({ estado_inicial "Servidor" true with
              conexion_activa := true, tiene_socket := true,
              ejecutando := true } : Estado).mensajes_pendientes ∧
      st'.acks_recibidos
        = ({ estado_inicial "Servidor" true with
              conexion_activa := true, tiene_socket := true,
              ejecutando := true } : Estado).acks_recibidos :=
  ⟨by decide,
    mensaje_malformado_descartado configFuente ⟨true, fun _ => false⟩ 2
      { estado_inicial "Servidor" true with
          conexion_activa := true, tiene_socket := true, ejecutando := true }
      "basura".data [1, 2] rfl rfl (by decide) (by decide) (Or.inl (by decide))⟩

/-- The trace of a run of the connect loop in which every attempt
fails, starting at retry counter `r` with `fuel` attempts left: each
attempt is logged, and every attempt but the last is followed by the
exponential backoff sleep `2 ^ (number of failures so far)`. -/
def trazaFallas : Nat → Nat → List Accion
  | _, 0 => []
  | _, 1 => [Accion.intentoConexion false]
  | r, fuel + 2 =>
    Accion.intentoConexion false :: Accion.esperar (2 ^ (r + 1)) ::
      trazaFallas (r + 1) (fuel + 1)

/-- The backoff sleeps of a trace, in order. -/
def soloEsperas : Accion → Option Nat
  | .esperar d => some d
  | _ => none

theorem conectarBucle_todo_falla (cfg : Config) (exitos : Nat → Bool)
    (hfail : ∀ r, exitos r = false) :
    ∀ fuel r st, st.ejecutando = true → r + fuel = cfg.max_reintentos → 0 < fuel →
      conectarBucle cfg exitos fuel r st
        = (false,
            { st with
                tiene_socket := true
                stats := { st.stats with errores := st.stats.errores + 1 } },
            trazaFallas r fuel) := by
  intro fuel
  induction fuel with
  | zero => intro r st _ _ hpos; omega
  | succ f ih =>
    intro r st hrun hsum _
    rw [conectarBucle, if_pos (⟨by simp [hrun], by omega⟩ :
      st.ejecutando = true ∧ r < cfg.max_reintentos)]
    rw [hfail r]
    simp only [Bool.false_eq_true, if_false]
    cases f with
    | zero =>
      rw [if_neg (by omega)]
      rfl
    | succ f2 =>
      rw [if_pos (by omega)]
      rw [ih (r + 1) { st with tiene_socket := true } hrun (by omega) (by omega)]
      rfl

theorem trazaFallas_intentos : ∀ fuel r,
    (trazaFallas r fuel).count (Accion.intentoConexion false) = fuel := by
  intro fuel
  induction fuel with
  | zero => intro r; rfl
  | succ f ih =>
    intro r
    cases f with
    | zero => rfl
    | succ f2 =>
      rw [trazaFallas]
      rw [List.count_cons, List.count_cons, ih (r + 1)]
      simp

theorem trazaFallas_esperas : ∀ fuel r,
    (trazaFallas r fuel).filterMap soloEsperas
      = (List.range (fuel - 1)).map (fun i => 2 ^ (r + 1 + i)) := by
  intro fuel
  induction fuel with
  | zero => intro r; rfl
  | succ f ih =>
    intro r
    cases f with
    | zero => rfl
    | succ f2 =>
      rw [trazaFallas]
      rw [List.filterMap_cons, List.filterMap_cons, ih (r + 1)]
      simp only [soloEsperas]
      rw [show f2 + 1 + 1 - 1 = (f2 + 1 - 1) + 1 from by omega, List.range_succ_eq_map]
      rw [List.map_cons, List.map_map]
      refine congrArg₂ List.cons (by rw [Nat.add_zero]) ?_
      refine congrArg (List.map · (List.range (f2 + 1 - 1))) ?_
      funext i
      simp only [Function.comp_apply]
      rw [show r + 1 + 1 + i = r + 1 + (i + 1) from by omega]

/-- C4: when every connection attempt of `_conectar_servidor` fails,
the loop makes exactly `max_reintentos` attempts, sleeps the
exponential backoff `2 ^ intento` between one failed attempt and the
next (and only between attempts), then increments the error counter
once, reports failure and stops — no further attempt appears in the
trace, so retrying again requires `_manejar_error_conexion` to call
`_conectar_servidor` afresh. -/
theorem conectar_agota_reintentos (cfg : Config) (exitos : Nat → Bool) (st : Estado)
    (hrun : st.ejecutando = true) (hpos : 1 ≤ cfg.max_reintentos)
    (hfail : ∀ r, exitos r = false) :
    conectar_servidor cfg exitos st
      = (false,
          { st with
              tiene_socket := true
              stats := { st.stats with errores := st.stats.errores + 1 } },
          trazaFallas 0 cfg.max_reintentos) ∧
    (trazaFallas 0 cfg.max_reintentos).count (Accion.intentoConexion false)
      = cfg.max_reintentos ∧
    (trazaFallas 0 cfg.max_reintentos).filterMap soloEsperas
      = (List.range (cfg.max_reintentos - 1)).map (fun i => 2 ^ (i + 1)) := by
  refine ⟨?_, trazaFallas_intentos cfg.max_reintentos 0, ?_⟩
  · exact conectarBucle_todo_falla cfg exitos hfail cfg.max_reintentos 0 st hrun
      (by omega) (by omega)
  · rw [trazaFallas_esperas cfg.max_reintentos 0]
    refine congrArg (List.map · (List.range (cfg.max_reintentos - 1))) ?_
    funext i
    rw [show 0 + 1 + i = i + 1 from by omega]

/-- C4 witness: three failing attempts under the source's defaults. -/
theorem conectar_agota_reintentos_testigo :
    conectar_servidor configFuente (fun _ => false)
        { estado_inicial "Cliente" false with ejecutando := true }
      = (false,
          { estado_inicial "Cliente" false with
              ejecutando := true
              tiene_socket := true
              stats := { statsCero with errores := 1 } },
          trazaFallas 0 configFuente.max_reintentos) ∧
    (trazaFallas 0 configFuente.max_reintentos).count (Accion.intentoConexion false)
      = configFuente.max_reintentos ∧
    (trazaFallas 0 configFuente.max_reintentos).filterMap soloEsperas
      = (List.range (configFuente.max_reintentos - 1)).map (fun i => 2 ^ (i + 1)) := by
  have h := conectar_agota_reintentos configFuente (fun _ => false)
    { estado_inicial "Cliente" false with ejecutando := true }
    rfl (by decide) (fun _ => rfl)
  exact h

theorem conectarBucle_conserva (cfg : Config) (exitos : Nat → Bool) :
    ∀ fuel r st,
      (((conectarBucle cfg exitos fuel r st).2.1).stats.mensajes_enviados
          = st.stats.mensajes_enviados) ∧
      (((conectarBucle cfg exitos fuel r st).2.1).stats.mensajes_recibidos
          = st.stats.mensajes_recibidos) ∧
      (((conectarBucle cfg exitos fuel r st).2.1).stats.acks_enviados
          = st.stats.acks_enviados) ∧
      (((conectarBucle cfg exitos fuel r st).2.1).stats.acks_recibidos
          = st.stats.acks_recibidos) := by
  intro fuel
  induction fuel with
  | zero => intro r st; exact ⟨rfl, rfl, rfl, rfl⟩
  | succ f ih =>
    intro r st
    rw [conectarBucle]
    split_ifs
    all_goals first
      | exact ⟨rfl, rfl, rfl, rfl⟩
      | exact ih (r + 1) { st with tiene_socket := true }

/-- C7 (amended): the six counters are zero exactly when the object is
constructed (`__init__`); a reconnection through `_conectar_servidor`
does not reset them — the four message/ACK counters are carried over
unchanged (and `reconexiones` itself is incremented on a successful
retry, which only makes sense because counters persist). -/
theorem estadisticas_ciclo_vida :
    (∀ nombre es_servidor, (estado_inicial nombre es_servidor).stats = statsCero) ∧
    (∀ (cfg : Config) (exitos : Nat → Bool) (st : Estado),
      (((conectar_servidor cfg exitos st).2.1).stats.mensajes_enviados
          = st.stats.mensajes_enviados) ∧
      (((conectar_servidor cfg exitos st).2.1).stats.mensajes_recibidos
          = st.stats.mensajes_recibidos) ∧
      (((conectar_servidor cfg exitos st).2.1).stats.acks_enviados
          = st.stats.acks_enviados) ∧
      (((conectar_servidor cfg exitos st).2.1).stats.acks_recibidos
          = st.stats.acks_recibidos)) :=
  ⟨fun _ _ => rfl,
    fun cfg exitos st => conectarBucle_conserva cfg exitos cfg.max_reintentos 0 st⟩

/-- A client that has already sent five messages, about to reconnect. -/
def estadoC7 : Estado :=
  { estado_inicial "Cliente" false with
      ejecutando := true
      stats := { statsCero with mensajes_enviados := 5 } }

/-- C7 counterexample: the first attempt fails and the second succeeds,
so a new connection (a reconnection: `reconexiones` becomes 1) starts —
yet `mensajes_enviados` still reads 5, not 0, refuting the claim that
every new connection lifecycle resets all six counters. -/
theorem conectar_no_reinicia_contra :
    ((conectar_servidor configFuente (fun r => r == 1) estadoC7).1 = true) ∧
    ((conectar_servidor configFuente (fun r => r == 1) estadoC7).2.1.stats.reconexiones = 1) ∧
    ¬((conectar_servidor configFuente (fun r => r == 1) estadoC7).2.1.stats.mensajes_enviados
        = 0) := by decide

/-- C2 (amended): for a received MENSAJE, the dispatcher synthesizes
and sends an ACK carrying the message's `id` value if and only if that
`id` field is present and truthy — the `requiere_ack` field plays no
part — and any such ACK is written before the delivery callback is
invoked with `(contenido, remitente)`. -/
theorem mensaje_ack_por_id (cfg : Config) (ent : Entorno) (ahora : Nat) (st : Estado)
    (mensaje : JObj)
    (htipo : busca mensaje "tipo" = some (JVal.jstr "MENSAJE"))
    (hw : ent.escrituraOk = true)
    (hcb : st.tiene_callback = true)
    (hlen : (utf8Encode (json_dumps [("tipo", JVal.jstr "ACK"),
        ("mensaje_id", (busca mensaje "id").getD (JVal.jnat 0))])).length < 4294967296) :
    procesar_objeto cfg ent ahora st mensaje
      = ({ st with stats := { st.stats with
              mensajes_recibidos := st.stats.mensajes_recibidos + 1
              acks_enviados := st.stats.acks_enviados
                + (if esVerdadero (busca mensaje "id") then 1 else 0) } },
          Accion.registrarEvento "recibido" ::
            ((if esVerdadero (busca mensaje "id") then
                [Accion.enviar [("tipo", JVal.jstr "ACK"),
                  ("mensaje_id", (busca mensaje "id").getD (JVal.jnat 0))]]
              else []) ++
              [Accion.entregar (busca mensaje "contenido") (busca mensaje "remitente")])) := by
  rw [procesar_objeto]
  dsimp only
  rw [htipo]
  rw [if_neg (by decide), if_neg (by decide), if_neg (by decide), if_pos rfl]
  by_cases hid : esVerdadero (busca mensaje "id") = true
  · obtain ⟨v, hv⟩ : ∃ v, busca mensaje "id" = some v := by
      cases hb : busca mensaje "id" with
      | none => rw [hb] at hid; exact absurd hid (by decide)
      | some v => exact ⟨v, rfl⟩
    rw [hv] at hid hlen ⊢
    simp only [Option.getD_some] at hlen ⊢
    simp only [hid, if_true]
    have hraw := enviar_raw_exito cfg ent [("tipo", JVal.jstr "ACK"), ("mensaje_id", v)]
      { st with stats := { st.stats with
          mensajes_recibidos := st.stats.mensajes_recibidos + 1 } } hw hlen
    rw [hraw]
    simp [hcb]
  · have hid2 : esVerdadero (busca mensaje "id") = false := by
      revert hid
      cases esVerdadero (busca mensaje "id") <;> simp
    simp only [hid2, Bool.false_eq_true, if_false]
    simp [hcb]

/-- The oracle and state for the C2 evaluations: writes succeed, a
callback is registered. -/
def entornoC2 : Entorno := ⟨true, fun _ => false⟩

/-- A connected server state with a registered callback. -/
def estadoC2 : Estado :=
  { estado_inicial "Servidor" true with
      conexion_activa := true
      tiene_socket := true
      ejecutando := true
      tiene_callback := true }

/-- C2 counterexample: a MENSAJE whose `requiere_ack` field is `False`
but whose id is 1 (truthy) still gets an ACK sent — the dispatcher
never reads `requiere_ack`, refuting the claimed "if and only if the
message declares it requires acknowledgment". -/
theorem ack_pese_a_no_requerir_contra :
    (busca (mensajeDe "Cliente" 1 (JVal.jstr "hola") 4 false) "requiere_ack"
        = some (JVal.jbool false)) ∧
    (Accion.enviar [("tipo", JVal.jstr "ACK"), ("mensaje_id", JVal.jnat 1)]
        ∈ (procesar_objeto configFuente entornoC2 9 estadoC2
            (mensajeDe "Cliente" 1 (JVal.jstr "hola") 4 false)).2) := by decide

set_option maxRecDepth 8000 in
/-- C2 witness: the amended theorem evaluated on a MENSAJE carrying
id 2 and `requiere_ack = True`. -/
theorem mensaje_ack_por_id_testigo :
    procesar_objeto configFuente entornoC2 11 estadoC2
        (mensajeDe "Cliente" 2 (JVal.jstr "buenas") 10 true)
      = ({ estadoC2 with stats := { estadoC2.stats with
              mensajes_recibidos := estadoC2.stats.mensajes_recibidos + 1
              acks_enviados := estadoC2.stats.acks_enviados
                + (if esVerdadero (busca (mensajeDe "Cliente" 2 (JVal.jstr "buenas") 10 true) "id")
                    then 1 else 0) } },
          Accion.registrarEvento "recibido" ::
            ((if esVerdadero (busca (mensajeDe "Cliente" 2 (JVal.jstr "buenas") 10 true) "id") then
                [Accion.enviar [("tipo", JVal.jstr "ACK"),
                  ("mensaje_id",
                    (busca (mensajeDe "Cliente" 2 (JVal.jstr "buenas") 10 true) "id").getD
                      (JVal.jnat 0))]]
              else []) ++
              [Accion.entregar
                (busca (mensajeDe "Cliente" 2 (JVal.jstr "buenas") 10 true) "contenido")
                (busca (mensajeDe "Cliente" 2 (JVal.jstr "buenas") 10 true) "remitente")])) := by
  have h := mensaje_ack_por_id configFuente entornoC2 11 estadoC2
    (mensajeDe "Cliente" 2 (JVal.jstr "buenas") 10 true)
    (by decide) rfl rfl (by decide)
  exact h

/-- The trace of `_esperar_ack` when the ACK never arrives, with `fuel`
loop rounds left: every round waits out the full `timeout_ack`, and
every round except the last then retransmits the retained message. -/
def trazaSinAck (cfg : Config) (m : JObj) : Nat → List Accion
  | 0 => []
  | 1 => [Accion.esperar cfg.timeout_ack]
  | fuel + 2 =>
    Accion.esperar cfg.timeout_ack :: Accion.enviar m :: trazaSinAck cfg m (fuel + 1)

theorem dictInserta_fresca (d : List (Nat × JObj)) (k : Nat) (v : JObj)
    (h : ∀ p ∈ d, p.1 ≠ k) : dictInserta d k v = d ++ [(k, v)] := by
  rw [dictInserta, if_neg]
  simp only [List.any_eq_true, not_exists, not_and]
  intro p hp
  simpa using h p hp

theorem buscaPendiente_fresca (d : List (Nat × JObj)) (k : Nat) (m : JObj)
    (h : ∀ p ∈ d, p.1 ≠ k) : buscaPendiente (d ++ [(k, m)]) k = some m := by
  induction d with
  | nil => simp [buscaPendiente]
  | cons p d ih =>
    have hp : (p.1 == k) = false := by simpa using h p (List.mem_cons_self p d)
    rw [List.cons_append, buscaPendiente, List.find?_cons_of_neg _ (by simp [hp])]
    exact ih (fun q hq => h q (List.mem_cons_of_mem _ hq))

theorem borraPendiente_fresca (d : List (Nat × JObj)) (k : Nat) (m : JObj)
    (h : ∀ p ∈ d, p.1 ≠ k) : borraPendiente (d ++ [(k, m)]) k = d := by
  rw [borraPendiente, List.filter_append]
  have h1 : d.filter (fun p => !(p.1 == k)) = d :=
    List.filter_eq_self.mpr (fun p hp => by simpa using h p hp)
  have h2 : ([(k, m)] : List (Nat × JObj)).filter (fun p => !(p.1 == k)) = [] := by simp
  rw [h1, h2, List.append_nil]

theorem esperarAckBucle_sin_ack (cfg : Config) (ent : Entorno) (id : Nat) (m : JObj)
    (hw : ent.escrituraOk = true)
    (hm : (utf8Encode (json_dumps m)).length < 4294967296) :
    ∀ fuel r st,
      r + fuel = cfg.max_reintentos →
      conjContiene st.acks_recibidos (some (JVal.jnat id)) = false →
      buscaPendiente st.mensajes_pendientes id = some m →
      esperarAckBucle cfg ent id fuel r st
        = ({ st with mensajes_pendientes := borraPendiente st.mensajes_pendientes id },
            trazaSinAck cfg m fuel, false) := by
  intro fuel
  induction fuel with
  | zero => intro r st _ _ _; rfl
  | succ f ih =>
    intro r st hsum hna hbp
    rw [esperarAckBucle, if_pos (by omega)]
    rw [hna]
    simp only [Bool.false_eq_true, if_false]
    cases f with
    | zero =>
      rw [if_neg (by omega)]
      rfl
    | succ f2 =>
      rw [if_pos (by omega)]
      rw [hbp]
      have hraw := enviar_raw_exito cfg ent m st hw hm
      dsimp only
      rw [hraw]
      dsimp only
      rw [ih (r + 1) st (by omega) hna hbp]
      rfl

theorem trazaSinAck_envios (cfg : Config) (m : JObj) :
    ∀ fuel, (trazaSinAck cfg m fuel).count (Accion.enviar m) = fuel - 1 := by
  intro fuel
  induction fuel with
  | zero => rfl
  | succ f ih =>
    cases f with
    | zero =>
      rw [trazaSinAck]
      rw [List.count_cons_of_ne (by simp)]
      rfl
    | succ f2 =>
      rw [trazaSinAck]
      rw [List.count_cons_of_ne (by simp), List.count_cons_self, ih]
      omega

theorem trazaSinAck_esperas (cfg : Config) (m : JObj) :
    ∀ fuel, (trazaSinAck cfg m fuel).count (Accion.esperar cfg.timeout_ack) = fuel := by
  intro fuel
  induction fuel with
  | zero => rfl
  | succ f ih =>
    cases f with
    | zero =>
      rw [trazaSinAck]
      rw [List.count_cons_self]
      rfl
    | succ f2 =>
      rw [trazaSinAck]
      rw [List.count_cons_self, List.count_cons_of_ne (by simp), ih]

/-- C1 (amended): a `send` with `requiere_ack=True` whose id never
appears in the received-ACK set returns `False` after
`max_reintentos - 1` retransmissions of the same message — that is,
`max_reintentos` transmissions in total, counting the initial write —
with a full `timeout_ack` wait before each retransmission and one final
full wait before giving up (`max_reintentos` waits in all), and the
message's pending entry is removed before returning. -/
theorem enviar_con_ack_agota (cfg : Config) (ent : Entorno) (ahora : Nat)
    (contenido : JVal) (st : Estado)
    (hact : st.conexion_activa = true) (hsock : st.tiene_socket = true)
    (hw : ent.escrituraOk = true)
    (hlen : (utf8Encode (json_dumps
        (mensajeDe st.nombre (st.mensaje_id + 1) contenido ahora true))).length
      < 4294967296)
    (hna : conjContiene st.acks_recibidos (some (JVal.jnat (st.mensaje_id + 1))) = false)
    (hfr : ∀ p ∈ st.mensajes_pendientes, p.1 ≠ st.mensaje_id + 1) :
    enviar_mensaje cfg ent ahora contenido true st
      = ({ st with
            mensaje_id := st.mensaje_id + 1
            stats := { st.stats with
              mensajes_enviados := st.stats.mensajes_enviados + 1 } },
          Accion.enviar (mensajeDe st.nombre (st.mensaje_id + 1) contenido ahora true) ::
            trazaSinAck cfg (mensajeDe st.nombre (st.mensaje_id + 1) contenido ahora true)
              cfg.max_reintentos,
          false) ∧
    (trazaSinAck cfg (mensajeDe st.nombre (st.mensaje_id + 1) contenido ahora true)
        cfg.max_reintentos).count
        (Accion.enviar (mensajeDe st.nombre (st.mensaje_id + 1) contenido ahora true))
      = cfg.max_reintentos - 1 ∧
    (trazaSinAck cfg (mensajeDe st.nombre (st.mensaje_id + 1) contenido ahora true)
        cfg.max_reintentos).count (Accion.esperar cfg.timeout_ack)
      = cfg.max_reintentos := by
  refine ⟨?_, trazaSinAck_envios cfg _ cfg.max_reintentos,
    trazaSinAck_esperas cfg _ cfg.max_reintentos⟩
  have hraw := enviar_raw_exito cfg ent
    (mensajeDe st.nombre (st.mensaje_id + 1) contenido ahora true)
    { st with mensaje_id := st.mensaje_id + 1 } hw hlen
  rw [enviar_mensaje, if_neg (by simp [hact, hsock])]
  dsimp only
  rw [hraw]
  dsimp only
  rw [dictInserta_fresca _ _ _ hfr]
  rw [esperar_ack]
  rw [esperarAckBucle_sin_ack cfg ent (st.mensaje_id + 1)
    (mensajeDe st.nombre (st.mensaje_id + 1) contenido ahora true) hw hlen]
  · dsimp only
    rw [borraPendiente_fresca _ _ _ hfr]
    simp
  · omega
  · exact hna
  · exact buscaPendiente_fresca _ _ _ hfr

/-- A connected client with one pending entry (id 1) and no received
ACKs, used for the C1 evaluations. -/
def estadoC1 : Estado :=
  { estado_inicial "Cliente" false with
      conexion_activa := true
      tiene_socket := true
      ejecutando := true
      mensaje_id := 1
      mensajes_pendientes := [(1, mensajeDe "Cliente" 1 (JVal.jstr "hola") 0 true)] }

set_option maxRecDepth 8000 in
/-- C1 counterexample: with the source's `max_reintentos = 3` and an
ACK that never arrives, `_esperar_ack` retransmits the pending message
exactly twice — `max_reintentos - 1` times — not the three times the
claim asserts. -/
theorem esperar_ack_reintentos_contra :
    configFuente.max_reintentos = 3 ∧
    ((esperar_ack configFuente ⟨true, fun _ => false⟩ 1 estadoC1).2.1.count
        (Accion.enviar (mensajeDe "Cliente" 1 (JVal.jstr "hola") 0 true)) = 2) := by
  decide

set_option maxRecDepth 8000 in
/-- C1 witness: the amended theorem evaluated on a concrete
never-acknowledged send. -/
theorem enviar_con_ack_agota_testigo :
    enviar_mensaje configFuente ⟨true, fun _ => false⟩ 8 (JVal.jstr "hola") true
        { estado_inicial "Cliente" false with
            conexion_activa := true, tiene_socket := true, ejecutando := true }
      = ({ estado_inicial "Cliente" false with
            conexion_activa := true, tiene_socket := true, ejecutando := true
            mensaje_id := 1
            stats := { statsCero with mensajes_enviados := 1 } },
          Accion.enviar (mensajeDe "Cliente" 1 (JVal.jstr "hola") 8 true) ::
            trazaSinAck configFuente (mensajeDe "Cliente" 1 (JVal.jstr "hola") 8 true)
              configFuente.max_reintentos,
          false) ∧
    (trazaSinAck configFuente (mensajeDe "Cliente" 1 (JVal.jstr "hola") 8 true)
        configFuente.max_reintentos).count
        (Accion.enviar (mensajeDe "Cliente" 1 (JVal.jstr "hola") 8 true))
      = configFuente.max_reintentos - 1 ∧
    (trazaSinAck configFuente (mensajeDe "Cliente" 1 (JVal.jstr "hola") 8 true)
        configFuente.max_reintentos).count (Accion.esperar configFuente.timeout_ack)
      = configFuente.max_reintentos := by
  have h := enviar_con_ack_agota configFuente ⟨true, fun _ => false⟩ 8 (JVal.jstr "hola")
    { estado_inicial "Cliente" false with
        conexion_activa := true, tiene_socket := true, ejecutando := true }
    rfl rfl rfl (by decide) rfl (by simp [estado_inicial])
  exact h

end TCPFiable
